import Mathlib

/-!
Verification development for the DocReasoner decision pipeline.

Shallow embedding of the rule validator (src/controller/validators.py), the
safety/calibration layer (reasoning_service/services/safety.py,
calibration.py), the ReAct reasoning loop (react_controller.py), the
delegating controller (controller.py) and the retrieval orchestrator
(retrieval/service.py). Numeric confidences are modelled as exact rationals;
external collaborators (LLM, tool executor, PageIndex client, FTS5 index,
RNG) are modelled as oracle parameters. Python float formatting inside
log/reason strings is abstracted where noted.
-/

attribute [local semireducible] Rat.add Rat.mul Rat.sub Rat.inv

namespace DocReasoner

/-- Python-style typed fact value (int/float collapsed to a rational;
Python bool is kept separate because the code tests identity with True). -/
inductive PyValue where
  | num (q : ℚ)
  | str (s : String)
  | bool (b : Bool)
  | none
deriving DecidableEq, Repr

/-- Python str() of a value, used where validators stringify fact values.
Exact decimal float formatting is abstracted; only string values are
compared against code lists / phrase vocabularies, which contain letters,
so the numeric representation never collides. -/
def pyStr : PyValue → String
  | .num q => if q.den = 1 then toString q.num else toString q.num ++ "/" ++ toString q.den
  | .str s => s
  | .bool b => if b then "True" else "False"
  | .none => "None"

/-- Python isinstance(v, (int, float)); note Python bool is a subtype of int,
so booleans count as numeric there. -/
def numericVal : PyValue → Option ℚ
  | .num q => some q
  | .bool b => some (if b then 1 else 0)
  | _ => Option.none

/-- One extracted case fact: field name, typed value, confidence.
Embeds the fact dicts consumed by LumbarMRIValidator (absent confidence
keys default to 0.0 in the code; here the field is total). -/
structure Fact where
  field : String
  value : PyValue
  confidence : ℚ
deriving DecidableEq, Repr

/-- ValidationResult from src/controller/validators.py. -/
structure ValidationResult where
  is_valid : Bool
  confidence : ℚ
  reason : String
  supporting_facts : List Fact
deriving DecidableEq, Repr

/-- CriterionValidation record of the validators. -/
structure Validations where
  age : ValidationResult
  diagnosis : ValidationResult
  red_flags : ValidationResult
  treatment : ValidationResult
deriving DecidableEq, Repr

structure CriterionValidation where
  criterion_id : String
  status : String
  validations : Validations
  overall_confidence : ℚ
  rationale : String
  reason_code : Option String
deriving DecidableEq, Repr

/-- Approved ICD-10-CM codes (validators.py APPROVED_ICD10_CODES). -/
def APPROVED_ICD10_CODES : List String :=
  ["M48.06", "M48.07", "M51.16", "M51.36", "M51.37", "M54.5", "M99.99"]

/-- Red flag condition vocabulary (validators.py RED_FLAG_CONDITIONS). -/
def RED_FLAG_CONDITIONS : List String :=
  ["progressive neurological deficit", "cauda equina syndrome", "suspected tumor",
   "suspected infection", "suspected fracture", "bowel or bladder dysfunction"]

/-- ASCII lowering of one character (Python str.lower restricted to the
ASCII range actually exercised by the policy vocabulary). -/
def charLower (c : Char) : Char :=
  if 65 ≤ c.toNat ∧ c.toNat ≤ 90 then Char.ofNat (c.toNat + 32) else c

/-- Python str.lower(). -/
def strLower (s : String) : String := ⟨s.data.map charLower⟩

/-- Python str.strip(): drop leading and trailing whitespace. -/
def strTrim (s : String) : String :=
  ⟨((s.data.dropWhile Char.isWhitespace).reverse.dropWhile Char.isWhitespace).reverse⟩

/-- needle is a leading segment of the character list. -/
def leadsWith : List Char → List Char → Bool
  | [], _ => true
  | _ :: _, [] => false
  | a :: as, b :: bs => a = b && leadsWith as bs

/-- needle occurs contiguously somewhere in the character list. -/
def hasSub (needle : List Char) : List Char → Bool
  | [] => decide (needle = [])
  | c :: rest => leadsWith needle (c :: rest) || hasSub needle rest

/-- Python substring test needle in hay. -/
def strContains (hay needle : String) : Bool :=
  hasSub needle.toList hay.toList

/-- facts grouped by field then looked up: grouping preserves input order
within a field, so the lookup is an order-preserving filter. Facts whose
field name is empty are skipped by the grouping (falsy key); callers only
look up non-empty names, for which the filter agrees. -/
def factsFor (facts : List Fact) (fname : String) : List Fact :=
  facts.filter (fun f => f.field = fname)

/-- Python max(facts, key=confidence): first element attaining the maximum. -/
def pyMaxByConf (f : Fact) (rest : List Fact) : Fact :=
  rest.foldl (fun acc x => if acc.confidence < x.confidence then x else acc) f

/-- LumbarMRIValidator._validate_age. -/
def validateAge (τ minAge : ℚ) : List Fact → ValidationResult
  | [] => ⟨false, 0, "Age information missing", []⟩
  | f :: fs =>
    let ft := pyMaxByConf f fs
    if ft.confidence < τ then
      ⟨false, ft.confidence, "Age documentation has low confidence", [ft]⟩
    else
      match numericVal ft.value with
      | Option.none => ⟨false, 0, "Age value is not numeric: " ++ pyStr ft.value, [ft]⟩
      | some v =>
        if minAge ≤ v then
          ⟨true, ft.confidence, "Patient age meets minimum requirement", [ft]⟩
        else
          ⟨false, ft.confidence, "Patient age is below minimum", [ft]⟩

/-- The scan inside _validate_diagnosis: walk the facts in order, returning
the low-confidence early exit if some fact is below threshold, otherwise the
(approved, unapproved) partition in input order. -/
def diagPartition (τ : ℚ) :
    List Fact → Except ValidationResult (List (String × Fact) × List (String × Fact))
  | [] => .ok ([], [])
  | f :: fs =>
    let code := strTrim (pyStr f.value)
    if f.confidence < τ then
      .error ⟨false, f.confidence, "Diagnosis code " ++ code ++ " has low confidence", [f]⟩
    else
      match diagPartition τ fs with
      | .error e => .error e
      | .ok (ap, un) =>
        if APPROVED_ICD10_CODES.contains code then .ok ((code, f) :: ap, un)
        else .ok (ap, (code, f) :: un)

/-- Python max(pairs, key=snd confidence): first pair attaining the maximum. -/
def pyMaxPairByConf (p : String × Fact) (rest : List (String × Fact)) : String × Fact :=
  rest.foldl (fun acc x => if acc.2.confidence < x.2.confidence then x else acc) p

/-- LumbarMRIValidator._validate_diagnosis. -/
def validateDiagnosis (τ : ℚ) (dfacts : List Fact) : ValidationResult :=
  match dfacts with
  | [] => ⟨false, 0, "Diagnosis code missing", []⟩
  | _ :: _ =>
    match diagPartition τ dfacts with
    | .error e => e
    | .ok (ap, un) =>
      match ap with
      | best0 :: rest =>
        let best := pyMaxPairByConf best0 rest
        ⟨true, best.2.confidence, "Diagnosis " ++ best.1 ++ " is in approved ICD-10-CM list",
          [best.2]⟩
      | [] =>
        match un with
        | (c, f) :: _ =>
          ⟨false, f.confidence,
            "Diagnosis " ++ c ++ " is not in approved ICD-10-CM list for lumbar MRI", [f]⟩
        | [] => ⟨false, 0, "No valid diagnosis codes found", dfacts⟩

/-- Fallthrough of _validate_red_flags when the confirmed branch does not
hold: red_flag_present with low confidence, else the no-red-flags default. -/
def redFlagFallback (τ : ℚ) (present : List Fact) : ValidationResult :=
  match present with
  | fact :: _ =>
    if fact.value = PyValue.bool true ∧ fact.confidence < τ then
      ⟨false, fact.confidence, "Red flag reported but confidence too low", [fact]⟩
    else ⟨false, 1, "No red flags present", []⟩
  | [] => ⟨false, 1, "No red flags present", []⟩

/-- LumbarMRIValidator._validate_red_flags, taking the grouped lists for
red_flag_present, red_flag_confirmed and red_flag_type. -/
def validateRedFlags (τ : ℚ) (present confirmed typeL : List Fact) : ValidationResult :=
  match confirmed with
  | fact :: _ =>
    if fact.value = PyValue.bool true ∧ τ ≤ fact.confidence then
      match typeL with
      | t :: _ =>
        let flagType := strLower (pyStr t.value)
        if RED_FLAG_CONDITIONS.any (fun k => strContains flagType k) then
          ⟨true, fact.confidence, "Red flag present: " ++ flagType, fact :: typeL⟩
        else redFlagFallback τ present
      | [] => redFlagFallback τ present
    else redFlagFallback τ present
  | [] => redFlagFallback τ present

/-- LumbarMRIValidator._validate_treatment_duration. -/
def validateTreatment (τ minWeeks : ℚ) (bypass : Bool) (tfacts : List Fact) : ValidationResult :=
  if bypass then
    ⟨true, 1, "Conservative treatment requirement bypassed due to red flags", []⟩
  else
    match tfacts with
    | [] => ⟨false, 0, "Conservative treatment duration not documented", []⟩
    | f :: fs =>
      let ft := pyMaxByConf f fs
      if ft.confidence < τ then
        ⟨false, ft.confidence, "Treatment duration has low confidence", [ft]⟩
      else
        match numericVal ft.value with
        | Option.none =>
          ⟨false, 0, "Treatment duration is not numeric: " ++ pyStr ft.value, [ft]⟩
        | some w =>
          if minWeeks ≤ w then
            ⟨true, ft.confidence, "Conservative treatment meets minimum", [ft]⟩
          else
            ⟨false, ft.confidence, "Conservative treatment is below minimum", [ft]⟩

/-- low_confidence_fields of _compute_overall_status (loop order
age, diagnosis, treatment). -/
def lowConfidenceFields (τ : ℚ) (v : Validations) : List String :=
  (if v.age.confidence < τ then ["age"] else [])
    ++ (if v.diagnosis.confidence < τ then ["diagnosis"] else [])
    ++ (if v.treatment.confidence < τ then ["treatment"] else [])

/-- failed_fields of _compute_overall_status: age/diagnosis fail when not
low-confidence and not valid; treatment is appended by the special case when
it is invalid and red flags are not valid. -/
def failedFields (τ : ℚ) (v : Validations) : List String :=
  (if ¬ v.age.confidence < τ ∧ v.age.is_valid = false then ["age"] else [])
    ++ (if ¬ v.diagnosis.confidence < τ ∧ v.diagnosis.is_valid = false then ["diagnosis"] else [])
    ++ (if v.treatment.is_valid = false ∧ v.red_flags.is_valid = false then ["treatment"] else [])

def reasonOfField (v : Validations) : String → String
  | "age" => v.age.reason
  | "diagnosis" => v.diagnosis.reason
  | "treatment" => v.treatment.reason
  | _ => ""

/-- Python min over the non-empty list of critical confidences. -/
def pyMin (x : ℚ) (xs : List ℚ) : ℚ :=
  xs.foldl min x

/-- status, reason_code and rationale chosen by _compute_overall_status. -/
def overallStatusFields (τ : ℚ) (v : Validations) : String × Option String × String :=
  if lowConfidenceFields τ v ≠ [] then
    ("uncertain", some "insufficient_documentation",
      "Unable to determine: " ++ String.intercalate ", " (lowConfidenceFields τ v)
        ++ " have insufficient documentation. Requires additional documentation or clarification.")
  else if failedFields τ v ≠ [] then
    ("not_ready", some "criteria_not_met",
      "Policy requirements not met: "
        ++ String.intercalate " " ((failedFields τ v).map (reasonOfField v)))
  else
    ("ready", Option.none,
      "Patient meets all criteria: "
        ++ String.intercalate " "
          (((if v.age.is_valid then [v.age.reason] else [])
            ++ (if v.diagnosis.is_valid then [v.diagnosis.reason] else [])
            ++ (if v.treatment.is_valid then [v.treatment.reason] else []))))

/-- LumbarMRIValidator._compute_overall_status. -/
def computeOverallStatus (τ : ℚ) (cid : String) (v : Validations) : CriterionValidation :=
  { criterion_id := cid
    status := (overallStatusFields τ v).1
    validations := v
    overall_confidence :=
      pyMin v.age.confidence [v.diagnosis.confidence, v.treatment.confidence]
    rationale := (overallStatusFields τ v).2.2
    reason_code := (overallStatusFields τ v).2.1 }

/-- LumbarMRIValidator.validate_criterion (threshold, min_age and
min_treatment_weeks are the constructor parameters; defaults 0.75, 18, 6). -/
def validateCriterion (τ minAge minWeeks : ℚ) (cid : String) (facts : List Fact) :
    CriterionValidation :=
  let ageV := validateAge τ minAge (factsFor facts "age")
  let diagV := validateDiagnosis τ
    (factsFor facts "primary_diagnosis" ++ factsFor facts "secondary_diagnosis")
  let rfV := validateRedFlags τ (factsFor facts "red_flag_present")
    (factsFor facts "red_flag_confirmed") (factsFor facts "red_flag_type")
  let trV := validateTreatment τ minWeeks rfV.is_valid
    (factsFor facts "conservative_treatment_weeks")
  computeOverallStatus τ cid ⟨ageV, diagV, rfV, trV⟩

section ValidatorLemmas

lemma lowConfidenceFields_ne_nil (τ : ℚ) (v : Validations) :
    lowConfidenceFields τ v ≠ [] ↔
      (v.age.confidence < τ ∨ v.diagnosis.confidence < τ ∨ v.treatment.confidence < τ) := by
  unfold lowConfidenceFields
  by_cases h1 : v.age.confidence < τ <;> by_cases h2 : v.diagnosis.confidence < τ <;>
    by_cases h3 : v.treatment.confidence < τ <;> simp [h1, h2, h3]

lemma failedFields_ne_nil (τ : ℚ) (v : Validations) :
    failedFields τ v ≠ [] ↔
      ((¬ v.age.confidence < τ ∧ v.age.is_valid = false) ∨
        (¬ v.diagnosis.confidence < τ ∧ v.diagnosis.is_valid = false) ∨
        (v.treatment.is_valid = false ∧ v.red_flags.is_valid = false)) := by
  unfold failedFields
  by_cases h1 : ¬ v.age.confidence < τ ∧ v.age.is_valid = false <;>
    by_cases h2 : ¬ v.diagnosis.confidence < τ ∧ v.diagnosis.is_valid = false <;>
      by_cases h3 : v.treatment.is_valid = false ∧ v.red_flags.is_valid = false <;>
        simp only [h1, h2, h3, if_true, if_false, if_pos, if_neg, not_false_eq_true,
          List.append_nil, List.nil_append, List.cons_ne_nil, ne_eq,
          not_true_eq_false, iff_true, iff_false] <;> tauto

lemma overallStatusFields_uncertain (τ : ℚ) (v : Validations)
    (h : lowConfidenceFields τ v ≠ []) :
    (overallStatusFields τ v).1 = "uncertain" ∧
      (overallStatusFields τ v).2.1 = some "insufficient_documentation" := by
  unfold overallStatusFields
  rw [if_pos h]
  exact ⟨rfl, rfl⟩

lemma overallStatusFields_not_ready (τ : ℚ) (v : Validations)
    (h : ¬ lowConfidenceFields τ v ≠ []) (h2 : failedFields τ v ≠ []) :
    (overallStatusFields τ v).1 = "not_ready" ∧
      (overallStatusFields τ v).2.1 = some "criteria_not_met" := by
  unfold overallStatusFields
  rw [if_neg h, if_pos h2]
  exact ⟨rfl, rfl⟩

lemma overallStatusFields_ready (τ : ℚ) (v : Validations)
    (h : ¬ lowConfidenceFields τ v ≠ []) (h2 : ¬ failedFields τ v ≠ []) :
    (overallStatusFields τ v).1 = "ready" ∧
      (overallStatusFields τ v).2.1 = Option.none := by
  unfold overallStatusFields
  rw [if_neg h, if_neg h2]
  exact ⟨rfl, rfl⟩

/-- Generic version of the aggregation facts over an arbitrary
Validations record. -/
lemma computeOverall_spec (τ : ℚ) (cid : String) (v : Validations) :
    (computeOverallStatus τ cid v).overall_confidence =
        min (min v.age.confidence v.diagnosis.confidence) v.treatment.confidence
      ∧ ((v.age.confidence < τ ∨ v.diagnosis.confidence < τ ∨ v.treatment.confidence < τ) →
          (computeOverallStatus τ cid v).status = "uncertain" ∧
            (computeOverallStatus τ cid v).reason_code = some "insufficient_documentation")
      ∧ (¬ (v.age.confidence < τ ∨ v.diagnosis.confidence < τ ∨ v.treatment.confidence < τ) →
          (v.age.is_valid = false ∨ v.diagnosis.is_valid = false ∨
              (v.treatment.is_valid = false ∧ v.red_flags.is_valid = false)) →
          (computeOverallStatus τ cid v).status = "not_ready" ∧
            (computeOverallStatus τ cid v).reason_code = some "criteria_not_met")
      ∧ (¬ (v.age.confidence < τ ∨ v.diagnosis.confidence < τ ∨ v.treatment.confidence < τ) →
          ¬ (v.age.is_valid = false ∨ v.diagnosis.is_valid = false ∨
              (v.treatment.is_valid = false ∧ v.red_flags.is_valid = false)) →
          (computeOverallStatus τ cid v).status = "ready" ∧
            (computeOverallStatus τ cid v).reason_code = Option.none) := by
  refine ⟨rfl, ?_, ?_, ?_⟩
  · intro h
    exact overallStatusFields_uncertain τ v ((lowConfidenceFields_ne_nil τ v).mpr h)
  · intro h hfail
    have hlow : ¬ lowConfidenceFields τ v ≠ [] := by
      rw [lowConfidenceFields_ne_nil]
      exact h
    have hfl : failedFields τ v ≠ [] := by
      rw [failedFields_ne_nil]
      push_neg at h
      rcases hfail with ha | hd | ht
      · exact Or.inl ⟨not_lt.mpr h.1, ha⟩
      · exact Or.inr (Or.inl ⟨not_lt.mpr h.2.1, hd⟩)
      · exact Or.inr (Or.inr ht)
    exact overallStatusFields_not_ready τ v hlow hfl
  · intro h hok
    have hlow : ¬ lowConfidenceFields τ v ≠ [] := by
      rw [lowConfidenceFields_ne_nil]
      exact h
    have hfl : ¬ failedFields τ v ≠ [] := by
      rw [failedFields_ne_nil]
      intro hbad
      apply hok
      rcases hbad with ha | hd | ht
      · exact Or.inl ha.2
      · exact Or.inr (Or.inl hd.2)
      · exact Or.inr (Or.inr ht)
    exact overallStatusFields_ready τ v hlow hfl

end ValidatorLemmas

/-- Claim C4 (confirmed): validate_criterion reports overall confidence as
the minimum of the age, diagnosis and treatment sub-check confidences;
status is uncertain with reason insufficient_documentation when any of those
confidences is below the threshold, otherwise not_ready with
criteria_not_met when age or diagnosis failed or treatment failed without a
valid red-flag bypass, otherwise ready with no reason code; and a valid
red-flag check forces the treatment sub-check to the bypass result
(valid, confidence 1.0, bypass reason) regardless of the treatment facts,
including durations below the minimum weeks. -/
theorem validator_aggregation_status (τ mA mW : ℚ) (cid : String) (facts : List Fact)
    (V : CriterionValidation) (hV : V = validateCriterion τ mA mW cid facts) :
    V.overall_confidence =
        min (min V.validations.age.confidence V.validations.diagnosis.confidence)
          V.validations.treatment.confidence
      ∧ ((V.validations.age.confidence < τ ∨ V.validations.diagnosis.confidence < τ ∨
            V.validations.treatment.confidence < τ) →
          V.status = "uncertain" ∧ V.reason_code = some "insufficient_documentation")
      ∧ (¬ (V.validations.age.confidence < τ ∨ V.validations.diagnosis.confidence < τ ∨
            V.validations.treatment.confidence < τ) →
          (V.validations.age.is_valid = false ∨ V.validations.diagnosis.is_valid = false ∨
              (V.validations.treatment.is_valid = false ∧
                V.validations.red_flags.is_valid = false)) →
          V.status = "not_ready" ∧ V.reason_code = some "criteria_not_met")
      ∧ (¬ (V.validations.age.confidence < τ ∨ V.validations.diagnosis.confidence < τ ∨
            V.validations.treatment.confidence < τ) →
          ¬ (V.validations.age.is_valid = false ∨ V.validations.diagnosis.is_valid = false ∨
              (V.validations.treatment.is_valid = false ∧
                V.validations.red_flags.is_valid = false)) →
          V.status = "ready" ∧ V.reason_code = Option.none)
      ∧ (V.validations.red_flags.is_valid = true →
          V.validations.treatment =
            ⟨true, 1, "Conservative treatment requirement bypassed due to red flags", []⟩) := by
  subst hV
  obtain ⟨g1, g2, g3, g4⟩ := computeOverall_spec τ cid
    ⟨validateAge τ mA (factsFor facts "age"),
     validateDiagnosis τ
       (factsFor facts "primary_diagnosis" ++ factsFor facts "secondary_diagnosis"),
     validateRedFlags τ (factsFor facts "red_flag_present")
       (factsFor facts "red_flag_confirmed") (factsFor facts "red_flag_type"),
     validateTreatment τ mW
       (validateRedFlags τ (factsFor facts "red_flag_present")
         (factsFor facts "red_flag_confirmed") (factsFor facts "red_flag_type")).is_valid
       (factsFor facts "conservative_treatment_weeks")⟩
  refine ⟨g1, g2, g3, g4, ?_⟩
  intro h
  have h2 : (validateRedFlags τ (factsFor facts "red_flag_present")
      (factsFor facts "red_flag_confirmed") (factsFor facts "red_flag_type")).is_valid
      = true := h
  show validateTreatment τ mW
    (validateRedFlags τ (factsFor facts "red_flag_present")
      (factsFor facts "red_flag_confirmed") (factsFor facts "red_flag_type")).is_valid
    (factsFor facts "conservative_treatment_weeks") = _
  rw [h2]
  rfl

/-- Witness for C4 at the spec scenarios: the red-flag bypass case with a
below-minimum treatment duration is ready with no reason code, and a
low-confidence diagnosis yields uncertain/insufficient_documentation. -/
theorem validator_aggregation_status_witness :
    (validateCriterion (3/4) 18 6 "c"
        [⟨"age", .num 45, 1⟩, ⟨"primary_diagnosis", .str "M54.5", 19/20⟩,
         ⟨"conservative_treatment_weeks", .num 0, 9/10⟩,
         ⟨"red_flag_confirmed", .bool true, 19/20⟩,
         ⟨"red_flag_type", .str "progressive neurological deficit", 19/20⟩]).status = "ready"
      ∧ (validateCriterion (3/4) 18 6 "c"
        [⟨"age", .num 45, 1⟩, ⟨"primary_diagnosis", .str "M54.5", 1/2⟩,
         ⟨"conservative_treatment_weeks", .num 8, 9/10⟩]).status = "uncertain" := by
  constructor
  · exact (validator_aggregation_status (3/4) 18 6 "c"
      [⟨"age", .num 45, 1⟩, ⟨"primary_diagnosis", .str "M54.5", 19/20⟩,
       ⟨"conservative_treatment_weeks", .num 0, 9/10⟩,
       ⟨"red_flag_confirmed", .bool true, 19/20⟩,
       ⟨"red_flag_type", .str "progressive neurological deficit", 19/20⟩]
      _ rfl).2.2.2.1 (by decide) (by decide) |>.1
  · exact (validator_aggregation_status (3/4) 18 6 "c"
      [⟨"age", .num 45, 1⟩, ⟨"primary_diagnosis", .str "M54.5", 1/2⟩,
       ⟨"conservative_treatment_weeks", .num 8, 9/10⟩]
      _ rfl).2.1 (by decide) |>.1

section Monotonicity

lemma foldl_max_keep (s : Fact) (ys : List Fact)
    (hys : ∀ y ∈ ys, y.confidence ≤ s.confidence) :
    ys.foldl (fun acc x => if acc.confidence < x.confidence then x else acc) s = s := by
  induction ys with
  | nil => rfl
  | cons y ys ih =>
    have hy : ¬ s.confidence < y.confidence := not_lt.mpr (hys y (by simp))
    simp only [List.foldl_cons]
    rw [if_neg hy]
    exact ih (fun z hz => hys z (List.mem_cons_of_mem _ hz))

lemma foldl_max_through (c : ℚ) (s : Fact) (hsc : s.confidence = c)
    (ys : List Fact) (hys : ∀ y ∈ ys, y.confidence ≤ c) :
    ∀ (xs : List Fact) (acc : Fact), (∀ x ∈ xs, x.confidence < c) → acc.confidence < c →
      (xs ++ s :: ys).foldl (fun acc x => if acc.confidence < x.confidence then x else acc) acc
        = s := by
  intro xs
  induction xs with
  | nil =>
    intro acc _ hacc
    simp only [List.nil_append, List.foldl_cons]
    rw [if_pos (by rw [hsc]; exact hacc)]
    exact foldl_max_keep s ys (fun y hy => by rw [hsc]; exact hys y hy)
  | cons x xs ih =>
    intro acc hxs hacc
    simp only [List.cons_append, List.foldl_cons]
    by_cases hax : acc.confidence < x.confidence
    · rw [if_pos hax]
      exact ih x (fun z hz => hxs z (List.mem_cons_of_mem _ hz)) (hxs x (by simp))
    · rw [if_neg hax]
      exact ih acc (fun z hz => hxs z (List.mem_cons_of_mem _ hz)) hacc

lemma pyMaxByConf_keep (s : Fact) (ys : List Fact)
    (hys : ∀ y ∈ ys, y.confidence ≤ s.confidence) : pyMaxByConf s ys = s :=
  foldl_max_keep s ys hys

lemma pyMaxByConf_through (x0 : Fact) (xs ys : List Fact) (s : Fact)
    (hx0 : x0.confidence < s.confidence) (hxs : ∀ x ∈ xs, x.confidence < s.confidence)
    (hys : ∀ y ∈ ys, y.confidence ≤ s.confidence) :
    pyMaxByConf x0 (xs ++ s :: ys) = s :=
  foldl_max_through s.confidence s rfl ys hys xs x0 hxs hx0

lemma validateAge_valid_iff (τ m : ℚ) (f : Fact) (fs : List Fact) :
    (validateAge τ m (f :: fs)).is_valid = true ↔
      (τ ≤ (pyMaxByConf f fs).confidence ∧
        ∃ w, numericVal (pyMaxByConf f fs).value = some w ∧ m ≤ w) := by
  simp only [validateAge]
  by_cases h1 : (pyMaxByConf f fs).confidence < τ
  · rw [if_pos h1]
    simp [not_le.mpr h1]
  · rw [if_neg h1]
    cases hnum : numericVal (pyMaxByConf f fs).value with
    | none => simp [hnum]
    | some w =>
      by_cases h2 : m ≤ w
      · simp [h2, not_lt.mp h1]
      · constructor
        · intro hv
          simp [h2] at hv
        · rintro ⟨_, w2, hw2, hm2⟩
          cases hw2
          exact absurd hm2 h2

lemma validateTreatment_valid_iff (τ mw : ℚ) (f : Fact) (fs : List Fact) :
    (validateTreatment τ mw false (f :: fs)).is_valid = true ↔
      (τ ≤ (pyMaxByConf f fs).confidence ∧
        ∃ w, numericVal (pyMaxByConf f fs).value = some w ∧ mw ≤ w) := by
  simp only [validateTreatment, Bool.false_eq_true, if_false]
  by_cases h1 : (pyMaxByConf f fs).confidence < τ
  · rw [if_pos h1]
    simp [not_le.mpr h1]
  · rw [if_neg h1]
    cases hnum : numericVal (pyMaxByConf f fs).value with
    | none => simp [hnum]
    | some w =>
      by_cases h2 : mw ≤ w
      · simp [h2, not_lt.mp h1]
      · constructor
        · intro hv
          simp [h2] at hv
        · rintro ⟨_, w2, hw2, hm2⟩
          cases hw2
          exact absurd hm2 h2

/-- Raising the confidence of the fact at a given position; out-of-range
positions leave the list unchanged. -/
def raiseConf : List Fact → ℕ → ℚ → List Fact
  | [], _, _ => []
  | f :: fs, 0, c => { f with confidence := c } :: fs
  | f :: fs, Nat.succ n, c => f :: raiseConf fs n c

lemma raiseConf_value_map : ∀ (l : List Fact) (i : ℕ) (c : ℚ),
    (raiseConf l i c).map (fun f => f.value) = l.map (fun f => f.value) := by
  intro l
  induction l with
  | nil => intro i c; rfl
  | cons f fs ih =>
    intro i c
    cases i with
    | zero => rfl
    | succ n =>
      simp only [raiseConf, List.map_cons]
      rw [ih n c]

lemma raiseConf_conf (τ c : ℚ) : ∀ (l : List Fact) (i : ℕ),
    (∀ f ∈ l, τ ≤ f.confidence) → τ ≤ c →
    ∀ f ∈ raiseConf l i c, τ ≤ f.confidence := by
  intro l
  induction l with
  | nil => intro i _ _ f hf; simp [raiseConf] at hf
  | cons g gs ih =>
    intro i hall hc f hf
    cases i with
    | zero =>
      simp only [raiseConf, List.mem_cons] at hf
      rcases hf with rfl | hf
      · exact hc
      · exact hall f (List.mem_cons_of_mem _ hf)
    | succ n =>
      simp only [raiseConf, List.mem_cons] at hf
      rcases hf with rfl | hf
      · exact hall f (by simp)
      · exact ih n (fun z hz => hall z (List.mem_cons_of_mem _ hz)) hc f hf

lemma diagPartition_error_invalid (τ : ℚ) :
    ∀ (l : List Fact) (e : ValidationResult),
      diagPartition τ l = Except.error e → e.is_valid = false := by
  intro l
  induction l with
  | nil => intro e he; simp [diagPartition] at he
  | cons f fs ih =>
    intro e he
    by_cases h1 : f.confidence < τ
    · simp only [diagPartition, if_pos h1, Except.error.injEq] at he
      rw [← he]
    · cases hfs : diagPartition τ fs with
      | error e2 =>
        simp only [diagPartition, if_neg h1, hfs, Except.error.injEq] at he
        exact he ▸ ih e2 hfs
      | ok p =>
        obtain ⟨ap, un⟩ := p
        simp only [diagPartition, if_neg h1, hfs] at he
        split_ifs at he

lemma diagPartition_ok_conf (τ : ℚ) :
    ∀ (l : List Fact) (p), diagPartition τ l = Except.ok p →
      ∀ f ∈ l, τ ≤ f.confidence := by
  intro l
  induction l with
  | nil => intro p _ f hf; simp at hf
  | cons g gs ih =>
    intro p hp f hf
    by_cases h1 : g.confidence < τ
    · simp only [diagPartition, if_pos h1] at hp
      exact Except.noConfusion hp
    · cases hfs : diagPartition τ gs with
      | error e2 =>
        simp only [diagPartition, if_neg h1, hfs] at hp
        exact Except.noConfusion hp
      | ok p2 =>
        rcases List.mem_cons.mp hf with rfl | hf2
        · exact not_lt.mp h1
        · exact ih p2 hfs f hf2

lemma diagPartition_conf_ok (τ : ℚ) :
    ∀ (l : List Fact), (∀ f ∈ l, τ ≤ f.confidence) →
      ∃ p, diagPartition τ l = Except.ok p := by
  intro l
  induction l with
  | nil => intro _; exact ⟨([], []), rfl⟩
  | cons g gs ih =>
    intro hall
    obtain ⟨⟨ap, un⟩, hp⟩ := ih (fun z hz => hall z (List.mem_cons_of_mem _ hz))
    have h1 : ¬ g.confidence < τ := not_lt.mpr (hall g (by simp))
    by_cases h2 : APPROVED_ICD10_CODES.contains (strTrim (pyStr g.value)) = true
    · exact ⟨((strTrim (pyStr g.value), g) :: ap, un),
        by simp only [diagPartition, if_neg h1, hp, if_pos h2]⟩
    · exact ⟨(ap, (strTrim (pyStr g.value), g) :: un),
        by simp only [diagPartition, if_neg h1, hp, if_neg h2]⟩

lemma diagPartition_ap_iff (τ : ℚ) :
    ∀ (l : List Fact) (ap un), diagPartition τ l = Except.ok (ap, un) →
      (ap ≠ [] ↔
        ∃ f ∈ l, APPROVED_ICD10_CODES.contains (strTrim (pyStr f.value)) = true) := by
  intro l
  induction l with
  | nil =>
    intro ap un he
    simp only [diagPartition] at he
    cases he
    simp
  | cons g gs ih =>
    intro ap un he
    by_cases h1 : g.confidence < τ
    · simp only [diagPartition, if_pos h1] at he
      exact Except.noConfusion he
    · cases hfs : diagPartition τ gs with
      | error e2 =>
        simp only [diagPartition, if_neg h1, hfs] at he
        exact Except.noConfusion he
      | ok p2 =>
        obtain ⟨ap2, un2⟩ := p2
        by_cases h2 : APPROVED_ICD10_CODES.contains (strTrim (pyStr g.value)) = true
        · simp only [diagPartition, if_neg h1, hfs, if_pos h2, Except.ok.injEq,
            Prod.mk.injEq] at he
          obtain ⟨he1, he2⟩ := he
          subst he1
          subst he2
          constructor
          · intro _; exact ⟨g, by simp, h2⟩
          · intro _; simp
        · simp only [diagPartition, if_neg h1, hfs, if_neg h2, Except.ok.injEq,
            Prod.mk.injEq] at he
          obtain ⟨he1, he2⟩ := he
          subst he1
          subst he2
          rw [ih ap2 un2 hfs]
          have h2m : strTrim (pyStr g.value) ∉ APPROVED_ICD10_CODES := by
            simpa using h2
          simp [h2m]

lemma validateDiagnosis_valid_iff (τ : ℚ) (l : List Fact) :
    (validateDiagnosis τ l).is_valid = true ↔
      (l ≠ [] ∧ (∀ f ∈ l, τ ≤ f.confidence) ∧
        ∃ f ∈ l, APPROVED_ICD10_CODES.contains (strTrim (pyStr f.value)) = true) := by
  cases l with
  | nil => simp [validateDiagnosis]
  | cons f fs =>
    simp only [validateDiagnosis]
    cases hdp : diagPartition τ (f :: fs) with
    | error e =>
      have h1 := diagPartition_error_invalid τ _ e hdp
      constructor
      · intro hv; rw [h1] at hv; cases hv
      · rintro ⟨_, hconf, _⟩
        obtain ⟨p, hp⟩ := diagPartition_conf_ok τ _ hconf
        rw [hp] at hdp
        cases hdp
    | ok p =>
      obtain ⟨ap, un⟩ := p
      have hconf := diagPartition_ok_conf τ _ _ hdp
      have hiff := diagPartition_ap_iff τ _ ap un hdp
      cases ap with
      | cons a rest =>
        simp only [List.cons_ne_nil, ne_eq, not_false_eq_true, true_iff, iff_true]
        exact ⟨by simp, hconf, hiff.mp (by simp)⟩
      | nil =>
        have hnone : ¬ ∃ f_1 ∈ f :: fs,
            APPROVED_ICD10_CODES.contains (strTrim (pyStr f_1.value)) = true := by
          intro hex
          exact absurd rfl (hiff.mpr hex)
        cases un with
        | cons u rest =>
          obtain ⟨c, uf⟩ := u
          simp only [List.cons_ne_nil, ne_eq]
          constructor
          · intro hv; cases hv
          · rintro ⟨_, _, hex⟩; exact absurd hex hnone
        | nil =>
          constructor
          · intro hv; cases hv
          · rintro ⟨_, _, hex⟩; exact absurd hex hnone

end Monotonicity

/-- Claim C9 counterexample: with two age facts (value 45 at confidence 0.9,
value 16 at confidence 0.8) the age sub-check is valid; raising the second
fact confidence to 0.95 (a raise, and above the 0.75 threshold, other
categories untouched) makes the highest-confidence selection switch to the
value-16 fact, so the previously valid age sub-check becomes failing. -/
theorem fact_confidence_raise_flips_age_check :
    (validateCriterion (3/4) 18 6 "lumbar_mri"
        [⟨"age", .num 45, 9/10⟩, ⟨"age", .num 16, 8/10⟩]).validations.age.is_valid = true
      ∧ (validateCriterion (3/4) 18 6 "lumbar_mri"
        [⟨"age", .num 45, 9/10⟩, ⟨"age", .num 16, 19/20⟩]).validations.age.is_valid = false
      ∧ ((8:ℚ)/10 ≤ 19/20 ∧ (3:ℚ)/4 < 19/20) := by
  refine ⟨by decide, by decide, by decide, by decide⟩

/-- Claim C9 (corrected): raising a fact confidence above threshold is
monotone for the diagnosis sub-check (any fact may be raised), and for the
age and treatment sub-checks when the raised fact is the one the sub-check
selects, i.e. the first highest-confidence fact of its field; raising a
different fact of the same field can change the selection and downgrade the
sub-check (see the counterexample). -/
theorem fact_confidence_monotonicity_selected (τ mA mW cNew : ℚ) :
    (∀ (xs ys : List Fact) (sel : Fact),
        (∀ x ∈ xs, x.confidence < sel.confidence) →
        (∀ y ∈ ys, y.confidence ≤ sel.confidence) →
        sel.confidence ≤ cNew → τ ≤ cNew →
        (validateAge τ mA (xs ++ sel :: ys)).is_valid = true →
        (validateAge τ mA (xs ++ { sel with confidence := cNew } :: ys)).is_valid = true)
      ∧ (∀ (b : Bool) (xs ys : List Fact) (sel : Fact),
        (∀ x ∈ xs, x.confidence < sel.confidence) →
        (∀ y ∈ ys, y.confidence ≤ sel.confidence) →
        sel.confidence ≤ cNew → τ ≤ cNew →
        (validateTreatment τ mW b (xs ++ sel :: ys)).is_valid = true →
        (validateTreatment τ mW b
          (xs ++ { sel with confidence := cNew } :: ys)).is_valid = true)
      ∧ (∀ (l : List Fact) (i : ℕ),
        (l.getD i ⟨"", PyValue.none, 0⟩).confidence ≤ cNew → τ ≤ cNew →
        (validateDiagnosis τ l).is_valid = true →
        (validateDiagnosis τ (raiseConf l i cNew)).is_valid = true) := by
  have hmaxOld : ∀ (xs ys : List Fact) (sel : Fact),
      (∀ x ∈ xs, x.confidence < sel.confidence) →
      (∀ y ∈ ys, y.confidence ≤ sel.confidence) →
      ∃ f fs, xs ++ sel :: ys = f :: fs ∧ pyMaxByConf f fs = sel := by
    intro xs ys sel hxs hys
    cases xs with
    | nil => exact ⟨sel, ys, rfl, pyMaxByConf_keep sel ys hys⟩
    | cons x0 xs' =>
      refine ⟨x0, xs' ++ sel :: ys, rfl, ?_⟩
      exact pyMaxByConf_through x0 xs' ys sel (hxs x0 (by simp))
        (fun z hz => hxs z (List.mem_cons_of_mem _ hz)) hys
  have hmaxNew : ∀ (xs ys : List Fact) (sel : Fact), sel.confidence ≤ cNew →
      (∀ x ∈ xs, x.confidence < sel.confidence) →
      (∀ y ∈ ys, y.confidence ≤ sel.confidence) →
      ∃ f fs, xs ++ { sel with confidence := cNew } :: ys = f :: fs ∧
        pyMaxByConf f fs = { sel with confidence := cNew } := by
    intro xs ys sel hle hxs hys
    cases xs with
    | nil =>
      exact ⟨_, ys, rfl, pyMaxByConf_keep _ ys (fun y hy => le_trans (hys y hy) hle)⟩
    | cons x0 xs' =>
      refine ⟨x0, xs' ++ { sel with confidence := cNew } :: ys, rfl, ?_⟩
      exact pyMaxByConf_through x0 xs' ys _
        (lt_of_lt_of_le (hxs x0 (by simp)) hle)
        (fun z hz => lt_of_lt_of_le (hxs z (List.mem_cons_of_mem _ hz)) hle)
        (fun y hy => le_trans (hys y hy) hle)
  refine ⟨?_, ?_, ?_⟩
  · intro xs ys sel hxs hys hle hτ hvalid
    obtain ⟨f, fs, heq, hmax⟩ := hmaxOld xs ys sel hxs hys
    obtain ⟨g, gs, heq2, hmax2⟩ := hmaxNew xs ys sel hle hxs hys
    rw [heq, validateAge_valid_iff, hmax] at hvalid
    rw [heq2, validateAge_valid_iff, hmax2]
    obtain ⟨_, w, hw, hmw⟩ := hvalid
    exact ⟨hτ, w, hw, hmw⟩
  · intro b xs ys sel hxs hys hle hτ hvalid
    cases b with
    | true => rfl
    | false =>
      obtain ⟨f, fs, heq, hmax⟩ := hmaxOld xs ys sel hxs hys
      obtain ⟨g, gs, heq2, hmax2⟩ := hmaxNew xs ys sel hle hxs hys
      rw [heq, validateTreatment_valid_iff, hmax] at hvalid
      rw [heq2, validateTreatment_valid_iff, hmax2]
      obtain ⟨_, w, hw, hmw⟩ := hvalid
      exact ⟨hτ, w, hw, hmw⟩
  · intro l i hlift hτ hvalid
    rw [validateDiagnosis_valid_iff] at hvalid ⊢
    obtain ⟨hne, hconf, f, hf, happ⟩ := hvalid
    refine ⟨?_, raiseConf_conf τ cNew l i hconf hτ, ?_⟩
    · intro h0
      apply hne
      cases l with
      | nil => rfl
      | cons g gs => cases i <;> simp [raiseConf] at h0
    · have hmem : f.value ∈ l.map (fun f => f.value) := List.mem_map_of_mem _ hf
      rw [← raiseConf_value_map l i cNew] at hmem
      obtain ⟨g, hg, hgv⟩ := List.mem_map.mp hmem
      exact ⟨g, hg, by rw [hgv]; exact happ⟩

/-- Witness for the amended C9 at concrete inputs: raising the selected age
fact from 0.9 to 0.95 keeps the age sub-check valid, and raising a
diagnosis fact from 0.8 to 0.95 keeps the diagnosis sub-check valid. -/
theorem fact_confidence_monotonicity_selected_witness :
    (validateAge (3/4) 18
        ([] ++ ({ field := "age", value := .num 45, confidence := 9/10 } : Fact)
          :: [⟨"age", .num 16, 8/10⟩])).is_valid = true
      ∧ (validateAge (3/4) 18
        ([] ++ ({ field := "age", value := .num 45, confidence := 19/20 } : Fact)
          :: [⟨"age", .num 16, 8/10⟩])).is_valid = true
      ∧ (validateDiagnosis (3/4)
        (raiseConf [⟨"primary_diagnosis", .str "M54.5", 8/10⟩] 0 (19/20))).is_valid = true := by
  refine ⟨by decide, ?_, ?_⟩
  · have h := (fact_confidence_monotonicity_selected (3/4) 18 6 (19/20)).1
      [] [⟨"age", .num 16, 8/10⟩] ⟨"age", .num 45, 9/10⟩
      (by decide) (by decide) (by decide) (by decide) (by decide)
    exact h
  · exact (fact_confidence_monotonicity_selected (3/4) 18 6 (19/20)).2.2
      [⟨"primary_diagnosis", .str "M54.5", 8/10⟩] 0 (by decide) (by decide) (by decide)

lemma redFlagFallback_not_valid (τ : ℚ) (present : List Fact) :
    (redFlagFallback τ present).is_valid = false := by
  cases present with
  | nil => rfl
  | cons fact rest =>
    simp only [redFlagFallback]
    split_ifs <;> rfl

/-- Claim C10 (confirmed): the red-flag check is valid exactly when the
first red_flag_confirmed fact has boolean value True with confidence at or
above the threshold and the lowercased stringified first red_flag_type value
contains one of the six approved phrases as a substring; validity consults
only those first facts, so it is invariant under changing the later
confirmed/type facts (and the red_flag_present facts); any longer string
that embeds an approved phrase, including in negating text, qualifies. -/
theorem red_flag_first_fact_substring (τ : ℚ) (present confirmed typeL : List Fact) :
    ((validateRedFlags τ present confirmed typeL).is_valid = true ↔
      ∃ c t cs ts, confirmed = c :: cs ∧ typeL = t :: ts ∧
        c.value = PyValue.bool true ∧ τ ≤ c.confidence ∧
        RED_FLAG_CONDITIONS.any
          (fun k => strContains (strLower (pyStr t.value)) k) = true)
      ∧ (∀ (c t : Fact) (cs1 cs2 ts1 ts2 p1 p2 : List Fact),
        (validateRedFlags τ p1 (c :: cs1) (t :: ts1)).is_valid =
          (validateRedFlags τ p2 (c :: cs2) (t :: ts2)).is_valid) := by
  constructor
  · cases confirmed with
    | nil =>
      simp only [validateRedFlags, redFlagFallback_not_valid]
      constructor
      · intro hv; cases hv
      · rintro ⟨c, t, cs, ts, hc, _⟩; cases hc
    | cons cf cfs =>
      by_cases h1 : cf.value = PyValue.bool true ∧ τ ≤ cf.confidence
      · cases typeL with
        | nil =>
          simp only [validateRedFlags, if_pos h1, redFlagFallback_not_valid]
          constructor
          · intro hv; cases hv
          · rintro ⟨c, t, cs, ts, hc, ht, _⟩; cases ht
        | cons tf tfs =>
          by_cases h2 : RED_FLAG_CONDITIONS.any
              (fun k => strContains (strLower (pyStr tf.value)) k) = true
          · simp only [validateRedFlags, if_pos h1, if_pos h2]
            constructor
            · intro _
              exact ⟨cf, tf, cfs, tfs, rfl, rfl, h1.1, h1.2, h2⟩
            · intro _; trivial
          · simp only [validateRedFlags, if_pos h1, if_neg h2, redFlagFallback_not_valid]
            constructor
            · intro hv; cases hv
            · rintro ⟨c, t, cs, ts, hc, ht, _, _, hany⟩
              cases hc
              cases ht
              exact absurd hany h2
      · simp only [validateRedFlags, if_neg h1, redFlagFallback_not_valid]
        constructor
        · intro hv; cases hv
        · rintro ⟨c, t, cs, ts, hc, ht, hval, hconf, _⟩
          cases hc
          exact absurd ⟨hval, hconf⟩ h1
  · intro c t cs1 cs2 ts1 ts2 p1 p2
    by_cases h1 : c.value = PyValue.bool true ∧ τ ≤ c.confidence
    · by_cases h2 : RED_FLAG_CONDITIONS.any
          (fun k => strContains (strLower (pyStr t.value)) k) = true
      · simp only [validateRedFlags, if_pos h1, if_pos h2]
      · simp only [validateRedFlags, if_pos h1, if_neg h2,
          redFlagFallback_not_valid]
    · simp only [validateRedFlags, if_neg h1, redFlagFallback_not_valid]

/-- Witness for C10: a confirmed red flag whose type string embeds the
approved phrase inside negating text ("patient denies suspected tumor")
still yields a valid red-flag check; applying the iff in both directions at
concrete inputs. -/
theorem red_flag_first_fact_substring_witness :
    (validateRedFlags (3/4) []
        [⟨"red_flag_confirmed", .bool true, 19/20⟩]
        [⟨"red_flag_type", .str "Patient denies suspected tumor", 1/2⟩]).is_valid = true := by
  exact (red_flag_first_fact_substring (3/4) []
      [⟨"red_flag_confirmed", .bool true, 19/20⟩]
      [⟨"red_flag_type", .str "Patient denies suspected tumor", 1/2⟩]).1.mpr
    ⟨⟨"red_flag_confirmed", .bool true, 19/20⟩,
     ⟨"red_flag_type", .str "Patient denies suspected tumor", 1/2⟩,
     [], [], rfl, rfl, rfl, by decide, by decide⟩

/-! Shared decision-pipeline data model
(reasoning_service/models/schema.py). -/

inductive DecisionStatus where
  | met
  | missing
  | uncertain
deriving DecidableEq, Repr

structure CitationInfo where
  doc : String
  version : String
  section_path : String
  pages : List ℤ
deriving DecidableEq, Repr

structure EvidenceInfo where
  doc_id : String
  page : ℤ
deriving DecidableEq, Repr

structure ConfidenceBreakdown where
  c_tree : ℚ
  c_span : ℚ
  c_final : ℚ
  c_joint : ℚ
deriving DecidableEq, Repr

structure ReasoningStep where
  step : ℕ
  action : String
  observation : String
deriving DecidableEq, Repr

/-- CriterionResult: one decision per criterion (timestamps and bbox fields
of the source model are not consulted by the embedded logic). -/
structure CriterionResult where
  criterion_id : String
  status : DecisionStatus
  evidence : Option EvidenceInfo
  citation : CitationInfo
  rationale : String
  confidence : ℚ
  confidence_breakdown : ConfidenceBreakdown
  search_trajectory : List String
  retrieval_method : String
  reason_code : Option String
  reasoning_trace : List ReasoningStep
deriving DecidableEq, Repr

/-- A generic concrete result used by witnesses and counterexamples. -/
def mkResult (st : DecisionStatus) (conf : ℚ) (rc : Option String) : CriterionResult :=
  { criterion_id := "crit-1", status := st, evidence := Option.none,
    citation := ⟨"LCD-L34220", "v1.0", "S1", []⟩, rationale := "r",
    confidence := conf, confidence_breakdown := ⟨conf, conf, conf, conf⟩,
    search_trajectory := [], retrieval_method := "pageindex-llm",
    reason_code := rc, reasoning_trace := [] }

/-! SafetyService (reasoning_service/services/safety.py) and
CalibrationService (reasoning_service/services/calibration.py). -/

def insertSorted (x : ℚ) : List ℚ → List ℚ
  | [] => [x]
  | y :: ys => if x ≤ y then x :: y :: ys else y :: insertSorted x ys

/-- Ascending sort, as numpy sorts the sample before taking a quantile. -/
def sortQ : List ℚ → List ℚ
  | [] => []
  | x :: xs => insertSorted x (sortQ xs)

/-- np.quantile with the default linear interpolation method: on the sorted
sample, position h = q(n-1), result x_i + (h-i)(x_{i+1}-x_i) with
i = floor h. -/
def npQuantileLinear (q : ℚ) (scores : List ℚ) : ℚ :=
  match sortQ scores with
  | [] => 0
  | x :: xs =>
    let s := x :: xs
    let n : ℕ := s.length
    let h : ℚ := q * ((n : ℚ) - 1)
    let i : ℕ := (⌊h⌋).toNat
    let γ : ℚ := h - (⌊h⌋ : ℚ)
    let xi := s.getD i 0
    let xi1 := s.getD (i + 1) xi
    xi + γ * (xi1 - xi)

/-- SafetyService.apply_conformal_prediction: no-op on empty calibration
data, else compare the non-conformity score 1-confidence against
np.quantile(calibration_scores, 1-alpha) and mark uncertain with reason
conformal_ambiguity when it strictly exceeds the quantile (the result object
is mutated in place in the source; modelled as a functional update). -/
def applyConformalPrediction (alpha : ℚ) (r : CriterionResult)
    (calibrationScores : List ℚ) : CriterionResult :=
  match calibrationScores with
  | [] => r
  | _ :: _ =>
    let quantile := npQuantileLinear (1 - alpha) calibrationScores
    let currentScore := 1 - r.confidence
    if quantile < currentScore then
      { r with status := .uncertain, reason_code := some "conformal_ambiguity" }
    else r

/-- CalibrationService.compute_conformal_threshold: the finite-sample
corrected quantile k = ceil((n+1)(1-alpha)) taken at level k/n; numpy
raises when k/n falls outside [0,1] (modelled as Option.none), and with no
calibration data the code returns the default threshold 0.5. -/
def computeConformalThreshold (alpha : ℚ) (scores : List ℚ) : Option ℚ :=
  match scores with
  | [] => some (1/2)
  | _ :: _ =>
    let n : ℕ := scores.length
    let k : ℤ := ⌈((n : ℚ) + 1) * (1 - alpha)⌉
    let q : ℚ := (k : ℚ) / (n : ℚ)
    if 0 ≤ q ∧ q ≤ 1 then some (npQuantileLinear q scores) else Option.none

/-- Claim C1 counterexample: with alpha = 0.1 and the ten historical scores
[0,...,0,1], the finite-sample corrected quantile of the claim is
ceil(11*0.9)/10 = 10/10, i.e. the maximum 1, while the marking step uses
the plain interpolated 0.9-quantile 1/10; a decision with confidence 0.5
has non-conformity 0.5 which does not exceed the claimed corrected
quantile, yet the code marks it uncertain/conformal_ambiguity. -/
theorem conformal_finite_sample_claim_false :
    (applyConformalPrediction (1/10) (mkResult .met (1/2) Option.none)
        [0, 0, 0, 0, 0, 0, 0, 0, 0, 1]).status = DecisionStatus.uncertain
      ∧ (applyConformalPrediction (1/10) (mkResult .met (1/2) Option.none)
        [0, 0, 0, 0, 0, 0, 0, 0, 0, 1]).reason_code = some "conformal_ambiguity"
      ∧ computeConformalThreshold (1/10) [0, 0, 0, 0, 0, 0, 0, 0, 0, 1] = some 1
      ∧ ¬ ((1:ℚ) < 1 - (mkResult .met (1/2) Option.none).confidence) := by
  refine ⟨by decide, by decide, by decide, by decide⟩

/-- Claim C1 (corrected): the marking step computes the (1-alpha) empirical
quantile of the calibration scores with numpy default linear interpolation
and no finite-sample correction (the corrected quantile lives only in the
separate, un-consulted compute_conformal_threshold); it marks the decision
uncertain with reason conformal_ambiguity exactly when 1-confidence strictly
exceeds that interpolated quantile, returns the decision unchanged on an
empty score list, and never marks a decision whose confidence is at least
1 minus that quantile. -/
theorem conformal_marking_interpolated_quantile (alpha : ℚ) (r : CriterionResult)
    (scores : List ℚ) :
    (scores = [] → applyConformalPrediction alpha r scores = r)
      ∧ (scores ≠ [] →
          (npQuantileLinear (1 - alpha) scores < 1 - r.confidence →
            applyConformalPrediction alpha r scores =
              { r with status := .uncertain, reason_code := some "conformal_ambiguity" })
          ∧ (1 - r.confidence ≤ npQuantileLinear (1 - alpha) scores →
            applyConformalPrediction alpha r scores = r)
          ∧ (1 - npQuantileLinear (1 - alpha) scores ≤ r.confidence →
            applyConformalPrediction alpha r scores = r)) := by
  constructor
  · intro h
    subst h
    rfl
  · intro hne
    cases scores with
    | nil => exact absurd rfl hne
    | cons s ss =>
      refine ⟨?_, ?_, ?_⟩
      · intro hgt
        simp only [applyConformalPrediction]
        rw [if_pos hgt]
      · intro hle
        simp only [applyConformalPrediction]
        rw [if_neg (not_lt.mpr hle)]
      · intro hconf
        have hle : 1 - r.confidence ≤ npQuantileLinear (1 - alpha) (s :: ss) := by
          linarith
        simp only [applyConformalPrediction]
        rw [if_neg (not_lt.mpr hle)]

/-- Witness for the amended C1: with alpha = 0.1 a confident decision is
left unchanged against scores [9/10], a low-confidence one is marked against
scores [1/2], and the empty calibration set is a no-op. -/
theorem conformal_marking_interpolated_quantile_witness :
    applyConformalPrediction (1/10) (mkResult .met (1/2) Option.none) [9/10]
        = mkResult .met (1/2) Option.none
      ∧ applyConformalPrediction (1/10) (mkResult .met (1/10) Option.none) [1/2]
        = { mkResult .met (1/10) Option.none with
            status := .uncertain, reason_code := some "conformal_ambiguity" }
      ∧ applyConformalPrediction (1/10) (mkResult .met 0 Option.none) []
        = mkResult .met 0 Option.none := by
  refine ⟨?_, ?_, ?_⟩
  · exact ((conformal_marking_interpolated_quantile (1/10)
      (mkResult .met (1/2) Option.none) [9/10]).2 (by decide)).2.1 (by decide)
  · exact ((conformal_marking_interpolated_quantile (1/10)
      (mkResult .met (1/10) Option.none) [1/2]).2 (by decide)).1 (by decide)
  · exact (conformal_marking_interpolated_quantile (1/10)
      (mkResult .met 0 Option.none) []).1 rfl

/-! Self-consistency (SafetyService.apply_self_consistency and
_aggregate_samples). -/

structure SafetyConfig where
  self_consistency_enabled : Bool
  self_consistency_threshold : ℚ
  self_consistency_k : ℕ
deriving Repr

/-- np.mean of a list of scores. -/
def pyMean (l : List ℚ) : ℚ := (l.foldl (· + ·) 0) / (l.length : ℚ)

/-- Python dict keys in first-insertion order. -/
def keysInOrder (l : List DecisionStatus) : List DecisionStatus :=
  l.foldl (fun acc s => if acc.contains s then acc else acc ++ [s]) []

/-- Python max(items, key=count): first key attaining the maximal count. -/
def pyArgmaxCount (p : DecisionStatus × ℕ) (rest : List (DecisionStatus × ℕ)) :
    DecisionStatus × ℕ :=
  rest.foldl (fun acc x => if acc.2 < x.2 then x else acc) p

/-- SafetyService._aggregate_samples on the non-empty sample list
samples[0] :: rest: majority vote on status (dict order, first max wins),
confidence = mean over samples agreeing with the majority (0.0 when none),
result is samples[0] with status and confidence replaced. -/
def aggregateSamples (s0 : CriterionResult) (rest : List CriterionResult) :
    CriterionResult :=
  let samples := s0 :: rest
  let majority :=
    match (keysInOrder (samples.map (fun s => s.status))).map
        (fun st => (st, samples.countP (fun s => decide (s.status = st)))) with
    | [] => s0.status
    | p :: ps => (pyArgmaxCount p ps).1
  let matching := (samples.filter (fun s => decide (s.status = majority))).map
    (fun s => s.confidence)
  let avg := match matching with
    | [] => 0
    | _ :: _ => pyMean matching
  { s0 with status := majority, confidence := avg }

/-- SafetyService.apply_self_consistency. The source resolves k with Python
or-semantics (None and 0 both fall back to settings), but its resampling
loop body is the TODO stub `pass`: evaluate_fn is never invoked and the
sample list stays [criterion_result]. -/
def applySelfConsistency (cfg : SafetyConfig) (r : CriterionResult)
    (evaluateFn : ℕ → CriterionResult) (kArg : Option ℕ) : CriterionResult :=
  if ¬ cfg.self_consistency_enabled then r
  else if cfg.self_consistency_threshold ≤ r.confidence then r
  else
    let k := match kArg with
      | Option.none => cfg.self_consistency_k
      | some kk => if kk = 0 then cfg.self_consistency_k else kk
    let samples : List CriterionResult :=
      (List.range (k - 1)).foldl (fun acc _ => acc) [r]
    match samples with
    | [] => r
    | s0 :: rest => aggregateSamples s0 rest

/-- Claim C5 (code_bug): apply_self_consistency never invokes the supplied
evaluation callback (the output is independent of it), and at the failing
input (confidence 0.5 below the 0.7 trigger, k = 3) it aggregates only the
original sample, returning the decision unchanged instead of producing k
total samples with a majority vote. -/
theorem self_consistency_stub_unchanged :
    (∀ (cfg : SafetyConfig) (r : CriterionResult)
        (f g : ℕ → CriterionResult) (kArg : Option ℕ),
        applySelfConsistency cfg r f kArg = applySelfConsistency cfg r g kArg)
      ∧ (∀ f : ℕ → CriterionResult,
        applySelfConsistency ⟨true, 7/10, 3⟩ (mkResult .met (1/2) Option.none) f
            Option.none = mkResult .met (1/2) Option.none)
      ∧ ((1:ℚ)/2 < 7/10) := by
  refine ⟨fun cfg r f g kArg => rfl, fun f => ?_, by norm_num⟩
  show aggregateSamples (mkResult .met (1/2) Option.none) [] = _
  decide

/-! ReAct controller (reasoning_service/services/react_controller.py). -/

/-- Arguments of a finish() call, i.e. the fields _build_result_from_finish
reads from the parsed JSON object. -/
structure FinishArgs where
  status : Option String
  rationale : Option String
  confidence : Option ℚ
  policy_section : Option String
  policy_pages : List ℤ
  evidence_doc_id : Option String
  evidence_page : Option ℤ
deriving DecidableEq, Repr

/-- One tool call of an LLM response; args is the json.loads result of the
arguments string projected to the fields the controller reads
(Option.none models a JSON parse failure; for non-finish tools the parsed
arguments are consumed only by the executor oracle). -/
structure ToolCall where
  id : String
  name : String
  args : Option FinishArgs
deriving DecidableEq, Repr

structure LLMResponse where
  content : Option String
  tool_calls : List ToolCall
  finish_reason : Option String
deriving DecidableEq, Repr

/-- Outcome of one executor.execute attempt; ToolTimeoutError is the
timeout constructor, any other exception is fail with str(exc), success
carries the JSON payload string. The executor is an external capability,
modelled as an oracle indexed by a global execution counter. -/
inductive ExecOutcome where
  | timeout (msg : String)
  | fail (msg : String)
  | ok (payload : String)
deriving DecidableEq, Repr

/-- Controller configuration (settings.controller_max_iterations,
controller_tool_timeout_seconds, controller_tool_timeout_overrides,
controller_tool_retry_limit; the retry limit is already clamped to ≥ 0 by
max(0, ...) in the constructor, hence ℕ). -/
structure ReactConfig where
  max_iterations : ℕ
  tool_timeout_seconds : ℚ
  tool_timeout_overrides : List (String × ℚ)
  tool_retry_limit : ℕ
deriving Repr

structure CaseBundleE where
  case_id : String
  policy_id : String
  policy_version_id : Option String
deriving DecidableEq, Repr

/-- ReActController._tool_timeout_for: per-tool override or global
default. -/
def toolTimeoutFor (cfg : ReactConfig) (toolName : String) : ℚ :=
  match cfg.tool_timeout_overrides.find? (fun p => p.1 = toolName) with
  | some p => p.2
  | Option.none => cfg.tool_timeout_seconds

/-- One entry of the tool-call history (latency_ms is wall-clock in the
source and not modelled). -/
structure ToolRecord where
  action : String
  success : Bool
  attempt : ℕ
  timeout : Bool
  error : Option String
deriving DecidableEq, Repr

/-- json.dumps of the failure observation returned for a non-timeout tool
exception. -/
def pyJsonFailure (msg : String) : String :=
  "\x7b\"success\": false, \"error\": \"" ++ msg ++ "\"\x7d"

/-- Python or-with-string-default. -/
def orElseStr (s dflt : String) : String := if s = "" then dflt else s

/-- ReActController._execute_tool_call: up to retry_limit+1 total attempts.
A timeout is recorded and retried until the attempt count exceeds the retry
limit (then Option.none is returned); a non-timeout exception is recorded
and returned as a JSON failure observation; success returns the payload.
remaining starts at retry_limit+1, attemptNo at 1; returns the result, the
history records appended by this call, and the next executor index. -/
def execToolAttempts (exec : ℕ → ExecOutcome) (toolName : String) :
    (remaining : ℕ) → (attemptNo : ℕ) → (idx : ℕ) →
      Option String × List ToolRecord × ℕ
  | 0, _, idx => (Option.none, [], idx)
  | r + 1, aNo, idx =>
    match exec idx with
    | .ok payload =>
      (some payload, [⟨toolName, true, aNo, false, Option.none⟩], idx + 1)
    | .fail msg =>
      (some (pyJsonFailure msg), [⟨toolName, false, aNo, false, some msg⟩], idx + 1)
    | .timeout msg =>
      if r = 0 then (Option.none, [⟨toolName, false, aNo, true, some msg⟩], idx + 1)
      else
        let next := execToolAttempts exec toolName r (aNo + 1) (idx + 1)
        (next.1, ⟨toolName, false, aNo, true, some msg⟩ :: next.2.1, next.2.2)

/-- Executing the tool calls of one iteration in order: an exhausted-timeout
tool aborts the evaluation with the timed-out observation, any other result
is appended to trace (truncated to 500 characters) and history and the
remaining calls run. -/
def execToolList (cfg : ReactConfig) (exec : ℕ → ExecOutcome) (iter : ℕ) :
    List ToolCall → ℕ → List ReasoningStep → List ToolRecord →
      Except (List ReasoningStep × List ToolRecord × String)
        (ℕ × List ReasoningStep × List ToolRecord)
  | [], idx, trace, hist => .ok (idx, trace, hist)
  | tc :: rest, idx, trace, hist =>
    let tmo := toolTimeoutFor cfg tc.name
    let r := execToolAttempts exec (orElseStr tc.name "unknown")
      (cfg.tool_retry_limit + 1) 1 idx
    match r.1 with
    | Option.none =>
      let obs := orElseStr tc.name "tool" ++ " timed out after " ++ toString tmo ++ "s"
      .error (trace ++ [⟨iter, orElseStr tc.name "unknown", obs⟩], hist ++ r.2.1, obs)
    | some payload =>
      execToolList cfg exec iter rest r.2.2
        (trace ++ [⟨iter, tc.name, payload.take 500⟩]) (hist ++ r.2.1)

/-- status_map.get(decision_args.get("status", "uncertain"), UNCERTAIN). -/
def statusFromArgs (s : Option String) : DecisionStatus :=
  match s with
  | some "met" => .met
  | some "missing" => .missing
  | _ => .uncertain

/-- observation[:200] truncation applied when serializing reasoning steps. -/
def truncObs (s : String) : String := if 200 < s.length then s.take 200 else s

/-- ReActController._build_result_from_finish (decision telemetry logging is
a side effect and elided; the source even calls it with await inside a
non-async def, which does not affect the constructed result). -/
def buildResultFromFinish (cid : String) (args : FinishArgs)
    (trace : List ReasoningStep) (cb : CaseBundleE) : CriterionResult :=
  let confidence := args.confidence.getD 0
  let st := statusFromArgs args.status
  { criterion_id := cid
    status := st
    evidence :=
      match args.evidence_doc_id with
      | some d => if d = "" then Option.none else some ⟨d, args.evidence_page.getD 0⟩
      | Option.none => Option.none
    citation := ⟨cb.policy_id, cb.policy_version_id.getD "v1.0",
      args.policy_section.getD "Unknown", args.policy_pages⟩
    rationale := args.rationale.getD "No rationale provided"
    confidence := confidence
    confidence_breakdown := ⟨9/10, 17/20, confidence, confidence⟩
    search_trajectory := []
    retrieval_method := "pageindex-llm"
    reason_code :=
      if st = DecisionStatus.uncertain then some "agent_uncertain" else Option.none
    reasoning_trace := trace.map (fun t => { t with observation := truncObs t.observation }) }

/-- ReActController._build_error_result. -/
def buildErrorResult (cid errorMsg : String) (trace : List ReasoningStep)
    (reasonCode : String) : CriterionResult :=
  { criterion_id := cid
    status := .uncertain
    evidence := Option.none
    citation := ⟨"N/A", "N/A", "N/A", []⟩
    rationale := "Agent error: " ++ errorMsg
    confidence := 0
    confidence_breakdown := ⟨0, 0, 0, 0⟩
    search_trajectory := []
    retrieval_method := "pageindex-llm"
    reason_code := some reasonCode
    reasoning_trace := trace.map (fun t => { t with observation := truncObs t.observation }) }

/-- Result of one criterion evaluation, together with the orderd tool-call
history and the number of LLM calls made (both emitted as telemetry by the
source). -/
structure LoopResult where
  result : CriterionResult
  tool_history : List ToolRecord
  llm_calls : ℕ
deriving Repr

/-- Observation recorded in the trace for a finish() call (float formatting
of the confidence is abstracted). -/
def finishObs (args : FinishArgs) : String :=
  "Status: " ++ args.status.getD "None" ++ ", Confidence: " ++
    (match args.confidence with
     | some c => toString c.num ++ "/" ++ toString c.den
     | Option.none => "None")

/-- The while loop of ReActController._evaluate_criterion: remaining counts
the iterations left (starting at max_iterations). Per iteration: call the
LLM oracle (failure terminates with agent_error); a finish tool call among
the returned calls terminates with the parsed decision or, on a JSON parse
failure, with agent_error; otherwise the tool calls run in order (an
exhausted timeout terminates with tool_timeout); a response with no tool
calls and finish_reason stop terminates as a stall; exhausting the
iterations terminates with the max-iterations error. -/
def runIterations (cfg : ReactConfig) (cb : CaseBundleE) (cid : String)
    (llm : ℕ → Except String LLMResponse) (exec : ℕ → ExecOutcome) :
    (remaining : ℕ) → (calls : ℕ) → (execIdx : ℕ) →
      List ReasoningStep → List ToolRecord → LoopResult
  | 0, calls, _, trace, hist =>
    ⟨buildErrorResult cid
      ("Max iterations (" ++ toString cfg.max_iterations ++ ") reached") trace
      "agent_error", hist, calls⟩
  | r + 1, calls, eIdx, trace, hist =>
    match llm calls with
    | .error e =>
      ⟨buildErrorResult cid ("LLM call failed: " ++ e) trace "agent_error", hist,
        calls + 1⟩
    | .ok resp =>
      let iter := calls + 1
      match resp.tool_calls.find? (fun tc => tc.name = "finish") with
      | some fc =>
        match fc.args with
        | some dargs =>
          ⟨buildResultFromFinish cid dargs (trace ++ [⟨iter, "finish", finishObs dargs⟩]) cb,
            hist ++ [⟨"finish", true, 1, false, Option.none⟩], iter⟩
        | Option.none =>
          ⟨buildErrorResult cid "Failed to parse finish() arguments" trace "agent_error",
            hist, iter⟩
      | Option.none =>
        match execToolList cfg exec iter resp.tool_calls eIdx trace hist with
        | .error (trace2, hist2, obs) =>
          ⟨buildErrorResult cid obs trace2 "tool_timeout", hist2, iter⟩
        | .ok (eIdx2, trace2, hist2) =>
          if resp.tool_calls = [] ∧ resp.finish_reason = some "stop" then
            ⟨buildErrorResult cid "Agent stopped without calling finish()" trace2
              "agent_error", hist2, iter⟩
          else
            runIterations cfg cb cid llm exec r (calls + 1) eIdx2 trace2 hist2

/-- ReActController._evaluate_criterion for one criterion. -/
def runEvaluateCriterion (cfg : ReactConfig) (cb : CaseBundleE) (cid : String)
    (llm : ℕ → Except String LLMResponse) (exec : ℕ → ExecOutcome) : LoopResult :=
  runIterations cfg cb cid llm exec cfg.max_iterations 0 0 [] []

lemma runIterations_stall (cfg : ReactConfig) (cb : CaseBundleE) (cid : String)
    (llm : ℕ → Except String LLMResponse) (exec : ℕ → ExecOutcome)
    (h : ∀ i, ∃ resp, llm i = .ok resp ∧ resp.tool_calls = [] ∧
      resp.finish_reason ≠ some "stop") :
    ∀ (r calls eIdx : ℕ) (trace : List ReasoningStep) (hist : List ToolRecord),
      runIterations cfg cb cid llm exec r calls eIdx trace hist =
        ⟨buildErrorResult cid
          ("Max iterations (" ++ toString cfg.max_iterations ++ ") reached") trace
          "agent_error", hist, calls + r⟩ := by
  intro r
  induction r with
  | zero =>
    intro calls eIdx trace hist
    simp [runIterations]
  | succ n ih =>
    intro calls eIdx trace hist
    obtain ⟨resp, hllm, hempty, hstop⟩ := h calls
    simp only [runIterations, hllm, hempty, List.find?_nil, execToolList]
    rw [if_neg (fun hand => hstop hand.2)]
    rw [ih (calls + 1) eIdx trace hist]
    have : calls + 1 + n = calls + (n + 1) := by omega
    rw [this]

/-- Claim C2 (confirmed): with an LLM capability that never returns tool
calls and never reports finish_reason stop, the loop makes exactly
max_iterations LLM calls and terminates uncertain with the max-iterations
rationale; with a first response carrying no tool calls and finish_reason
stop, it terminates after the single LLM call, uncertain, with the
stopped-without-finish rationale. The rationales are stated with the exact
strings of _build_error_result; the quoted phrases of the claim are the
spec's shorthand for these messages. -/
theorem react_loop_stall_termination (cfg : ReactConfig) (cb : CaseBundleE)
    (cid : String) (exec : ℕ → ExecOutcome) :
    (∀ llm : ℕ → Except String LLMResponse,
        (∀ i, ∃ resp, llm i = .ok resp ∧ resp.tool_calls = [] ∧
          resp.finish_reason ≠ some "stop") →
        (runEvaluateCriterion cfg cb cid llm exec).llm_calls = cfg.max_iterations
          ∧ (runEvaluateCriterion cfg cb cid llm exec).result.status =
            DecisionStatus.uncertain
          ∧ (runEvaluateCriterion cfg cb cid llm exec).result.rationale =
            "Agent error: Max iterations (" ++ toString cfg.max_iterations ++ ") reached")
      ∧ (∀ (llm : ℕ → Except String LLMResponse) (resp : LLMResponse),
        llm 0 = .ok resp → resp.tool_calls = [] → resp.finish_reason = some "stop" →
        1 ≤ cfg.max_iterations →
        (runEvaluateCriterion cfg cb cid llm exec).llm_calls = 1
          ∧ (runEvaluateCriterion cfg cb cid llm exec).result.status =
            DecisionStatus.uncertain
          ∧ (runEvaluateCriterion cfg cb cid llm exec).result.rationale =
            "Agent error: Agent stopped without calling finish()") := by
  constructor
  · intro llm h
    unfold runEvaluateCriterion
    rw [runIterations_stall cfg cb cid llm exec h cfg.max_iterations 0 0 [] []]
    exact ⟨Nat.zero_add _, rfl, rfl⟩
  · intro llm resp hllm hempty hstop hmax
    unfold runEvaluateCriterion
    obtain ⟨k, hk⟩ : ∃ k, cfg.max_iterations = k + 1 :=
      ⟨cfg.max_iterations - 1, by omega⟩
    rw [hk]
    simp only [runIterations, hllm, hempty, List.find?_nil, execToolList]
    rw [if_pos ⟨by trivial, hstop⟩]
    refine ⟨?_, ?_, ?_⟩ <;> trivial

/-- Witness for C2: a three-iteration configuration with a tool-less LLM
makes exactly 3 calls and reports the max-iterations error, and a
first-call stop response terminates immediately as a stall. -/
theorem react_loop_stall_termination_witness :
    (runEvaluateCriterion ⟨3, 12, [], 1⟩ ⟨"case-1", "p", Option.none⟩ "c"
        (fun _ => .ok ⟨Option.none, [], some "length"⟩)
        (fun _ => .timeout "t")).llm_calls = 3
      ∧ (runEvaluateCriterion ⟨3, 12, [], 1⟩ ⟨"case-1", "p", Option.none⟩ "c"
        (fun _ => .ok ⟨Option.none, [], some "length"⟩)
        (fun _ => .timeout "t")).result.rationale =
          "Agent error: Max iterations (3) reached"
      ∧ (runEvaluateCriterion ⟨3, 12, [], 1⟩ ⟨"case-1", "p", Option.none⟩ "c"
        (fun _ => .ok ⟨Option.none, [], some "stop"⟩)
        (fun _ => .timeout "t")).llm_calls = 1
      ∧ (runEvaluateCriterion ⟨3, 12, [], 1⟩ ⟨"case-1", "p", Option.none⟩ "c"
        (fun _ => .ok ⟨Option.none, [], some "stop"⟩)
        (fun _ => .timeout "t")).result.rationale =
          "Agent error: Agent stopped without calling finish()" := by
  have h1 := (react_loop_stall_termination ⟨3, 12, [], 1⟩ ⟨"case-1", "p", Option.none⟩ "c"
    (fun _ => .timeout "t")).1 (fun _ => .ok ⟨Option.none, [], some "length"⟩)
    (fun i => ⟨⟨Option.none, [], some "length"⟩, rfl, rfl, by decide⟩)
  have h2 := (react_loop_stall_termination ⟨3, 12, [], 1⟩ ⟨"case-1", "p", Option.none⟩ "c"
    (fun _ => .timeout "t")).2 (fun _ => .ok ⟨Option.none, [], some "stop"⟩)
    ⟨Option.none, [], some "stop"⟩ rfl rfl rfl (by decide)
  exact ⟨h1.1, h1.2.2, h2.1, h2.2.2⟩

lemma execToolAttempts_succ_eq (exec : ℕ → ExecOutcome) (toolName : String)
    (r aNo idx : ℕ) :
    execToolAttempts exec toolName (r + 1) aNo idx =
      match exec idx with
      | .ok payload =>
        (some payload, [⟨toolName, true, aNo, false, Option.none⟩], idx + 1)
      | .fail msg =>
        (some (pyJsonFailure msg), [⟨toolName, false, aNo, false, some msg⟩], idx + 1)
      | .timeout msg =>
        if r = 0 then (Option.none, [⟨toolName, false, aNo, true, some msg⟩], idx + 1)
        else
          ((execToolAttempts exec toolName r (aNo + 1) (idx + 1)).1,
            ⟨toolName, false, aNo, true, some msg⟩ ::
              (execToolAttempts exec toolName r (aNo + 1) (idx + 1)).2.1,
            (execToolAttempts exec toolName r (aNo + 1) (idx + 1)).2.2) := by
  rfl

lemma execToolAttempts_all_timeout (exec : ℕ → ExecOutcome) (toolName : String) :
    ∀ (r aNo idx : ℕ), (∀ j, j < r → ∃ m, exec (idx + j) = ExecOutcome.timeout m) →
      (execToolAttempts exec toolName r aNo idx).1 = Option.none
        ∧ (execToolAttempts exec toolName r aNo idx).2.1.length = r
        ∧ (∀ rec ∈ (execToolAttempts exec toolName r aNo idx).2.1,
            rec.timeout = true ∧ rec.action = toolName) := by
  intro r
  induction r with
  | zero =>
    intro aNo idx _
    refine ⟨rfl, rfl, ?_⟩
    intro rec h
    simp [execToolAttempts] at h
  | succ n ih =>
    intro aNo idx hto
    obtain ⟨m, hm⟩ := hto 0 (Nat.succ_pos n)
    rw [Nat.add_zero] at hm
    cases n with
    | zero =>
      refine ⟨?_, ?_, ?_⟩ <;> simp [execToolAttempts, hm]
    | succ p =>
      have hto2 : ∀ j, j < p + 1 → ∃ m2, exec (idx + 1 + j) = ExecOutcome.timeout m2 := by
        intro j hj
        obtain ⟨m2, hm2⟩ := hto (j + 1) (by omega)
        exact ⟨m2, by rw [show idx + 1 + j = idx + (j + 1) from by omega]; exact hm2⟩
      obtain ⟨g1, g2, g3⟩ := ih (aNo + 1) (idx + 1) hto2
      have hne : ¬ (p + 1 = 0) := Nat.succ_ne_zero p
      have hstep := execToolAttempts_succ_eq exec toolName (p + 1) aNo idx
      simp only [hm, hne, if_false, ite_false] at hstep
      rw [hstep]
      refine ⟨g1, by simp only [List.length_cons, g2], ?_⟩
      intro rec hrec
      rcases List.mem_cons.mp hrec with rfl | hrec2
      · exact ⟨rfl, rfl⟩
      · exact g3 rec hrec2

/-- Claim C3 (confirmed): every tool call runs with at most retry_limit
additional attempts under the per-tool timeout budget. If every attempt
times out, the evaluation terminates uncertain with reason tool_timeout,
retry_limit+1 timeout records for the tool, and the timed-out rationale
quoting the per-tool timeout (override or global default, via
toolTimeoutFor). A non-timeout tool exception becomes a failure observation
and the loop continues to the next LLM call. A tool that times out exactly
once and then succeeds, with retry_limit = 1, lets the evaluation finish
successfully with exactly 2 recorded attempts for that tool. -/
theorem react_tool_timeout_retry (cfg : ReactConfig) (cb : CaseBundleE) (cid : String) :
    (∀ (llm : ℕ → Except String LLMResponse) (exec : ℕ → ExecOutcome)
        (resp : LLMResponse) (tc : ToolCall),
        llm 0 = .ok resp → resp.tool_calls = [tc] → ¬ tc.name = "finish" →
        (∀ j, j ≤ cfg.tool_retry_limit → ∃ m, exec j = ExecOutcome.timeout m) →
        1 ≤ cfg.max_iterations →
        (runEvaluateCriterion cfg cb cid llm exec).result.status = DecisionStatus.uncertain
          ∧ (runEvaluateCriterion cfg cb cid llm exec).result.reason_code =
            some "tool_timeout"
          ∧ (runEvaluateCriterion cfg cb cid llm exec).result.rationale =
            "Agent error: " ++ orElseStr tc.name "tool" ++ " timed out after "
              ++ toString (toolTimeoutFor cfg tc.name) ++ "s"
          ∧ (runEvaluateCriterion cfg cb cid llm exec).tool_history.length =
            cfg.tool_retry_limit + 1
          ∧ (∀ rec ∈ (runEvaluateCriterion cfg cb cid llm exec).tool_history,
            rec.timeout = true))
      ∧ (∀ (llm : ℕ → Except String LLMResponse) (exec : ℕ → ExecOutcome)
        (resp1 : LLMResponse) (tc : ToolCall) (msg : String)
        (resp2 : LLMResponse) (fc : ToolCall) (dargs : FinishArgs),
        llm 0 = .ok resp1 → resp1.tool_calls = [tc] → ¬ tc.name = "finish" →
        exec 0 = ExecOutcome.fail msg →
        llm 1 = .ok resp2 → resp2.tool_calls = [fc] → fc.name = "finish" →
        fc.args = some dargs → 2 ≤ cfg.max_iterations →
        (runEvaluateCriterion cfg cb cid llm exec).llm_calls = 2
          ∧ (runEvaluateCriterion cfg cb cid llm exec).result.status =
            statusFromArgs dargs.status
          ∧ (runEvaluateCriterion cfg cb cid llm exec).tool_history =
            [⟨orElseStr tc.name "unknown", false, 1, false, some msg⟩,
             ⟨"finish", true, 1, false, Option.none⟩])
      ∧ (cfg.tool_retry_limit = 1 →
        ∀ (llm : ℕ → Except String LLMResponse) (exec : ℕ → ExecOutcome)
          (resp1 : LLMResponse) (tc : ToolCall) (m payload : String)
          (resp2 : LLMResponse) (fc : ToolCall) (dargs : FinishArgs),
        llm 0 = .ok resp1 → resp1.tool_calls = [tc] → ¬ tc.name = "finish" →
        exec 0 = ExecOutcome.timeout m → exec 1 = ExecOutcome.ok payload →
        llm 1 = .ok resp2 → resp2.tool_calls = [fc] → fc.name = "finish" →
        fc.args = some dargs → 2 ≤ cfg.max_iterations →
        (runEvaluateCriterion cfg cb cid llm exec).result.status =
            statusFromArgs dargs.status
          ∧ (runEvaluateCriterion cfg cb cid llm exec).tool_history =
            [⟨orElseStr tc.name "unknown", false, 1, true, some m⟩,
             ⟨orElseStr tc.name "unknown", true, 2, false, Option.none⟩,
             ⟨"finish", true, 1, false, Option.none⟩]
          ∧ ((runEvaluateCriterion cfg cb cid llm exec).tool_history.filter
              (fun rec => rec.action = orElseStr tc.name "unknown")).length = 2) := by
  refine ⟨?_, ?_, ?_⟩
  · intro llm exec resp tc hllm hcalls hname hto hmax
    unfold runEvaluateCriterion
    obtain ⟨k, hk⟩ : ∃ k, cfg.max_iterations = k + 1 :=
      ⟨cfg.max_iterations - 1, by omega⟩
    rw [hk]
    have hfind : [tc].find? (fun x => decide (x.name = "finish")) = Option.none := by
      simp [List.find?, hname]
    obtain ⟨g1, g2, g3⟩ := execToolAttempts_all_timeout exec
      (orElseStr tc.name "unknown") (cfg.tool_retry_limit + 1) 1 0
      (fun j hj => by
        obtain ⟨m, hm⟩ := hto j (by omega)
        exact ⟨m, by rw [Nat.zero_add]; exact hm⟩)
    rcases hE : execToolAttempts exec (orElseStr tc.name "unknown")
      (cfg.tool_retry_limit + 1) 1 0 with ⟨res, recs, nidx⟩
    rw [hE] at g1 g2 g3
    simp only at g1 g2 g3
    subst g1
    simp only [runIterations, hllm, hcalls, hfind, execToolList, hE]
    exact ⟨rfl, rfl, rfl, by simpa using g2, by simpa using fun rec h => (g3 rec h).1⟩
  · intro llm exec resp1 tc msg resp2 fc dargs hllm1 hcalls1 hname hexec0
      hllm2 hcalls2 hfcname hfcargs hmax
    unfold runEvaluateCriterion
    obtain ⟨k, hk⟩ : ∃ k, cfg.max_iterations = k + 2 :=
      ⟨cfg.max_iterations - 2, by omega⟩
    rw [hk]
    have hfind1 : [tc].find? (fun x => decide (x.name = "finish")) = Option.none := by
      simp [List.find?, hname]
    have hfind2 : [fc].find? (fun x => decide (x.name = "finish")) = some fc := by
      simp [List.find?, hfcname]
    have hE : execToolAttempts exec (orElseStr tc.name "unknown")
        (cfg.tool_retry_limit + 1) 1 0 =
        (some (pyJsonFailure msg),
          [⟨orElseStr tc.name "unknown", false, 1, false, some msg⟩], 1) := by
      simp [execToolAttempts, hexec0]
    simp only [show k + 2 = (k + 1) + 1 from rfl, runIterations, hllm1, hcalls1,
      hfind1, execToolList, hE]
    rw [if_neg (fun hand => List.cons_ne_nil tc [] hand.1)]
    simp only [runIterations, hllm2, hcalls2, hfind2, hfcargs]
    refine ⟨by trivial, by trivial, by trivial⟩
  · intro hretry llm exec resp1 tc m payload resp2 fc dargs hllm1 hcalls1 hname
      hexec0 hexec1 hllm2 hcalls2 hfcname hfcargs hmax
    unfold runEvaluateCriterion
    obtain ⟨k, hk⟩ : ∃ k, cfg.max_iterations = k + 2 :=
      ⟨cfg.max_iterations - 2, by omega⟩
    rw [hk]
    have hfind1 : [tc].find? (fun x => decide (x.name = "finish")) = Option.none := by
      simp [List.find?, hname]
    have hfind2 : [fc].find? (fun x => decide (x.name = "finish")) = some fc := by
      simp [List.find?, hfcname]
    have hE : execToolAttempts exec (orElseStr tc.name "unknown")
        (cfg.tool_retry_limit + 1) 1 0 =
        (some payload,
          [⟨orElseStr tc.name "unknown", false, 1, true, some m⟩,
           ⟨orElseStr tc.name "unknown", true, 2, false, Option.none⟩], 2) := by
      rw [hretry]
      simp [execToolAttempts, hexec0, hexec1]
    have hnofin : ¬ orElseStr tc.name "unknown" = "finish" := by
      unfold orElseStr
      by_cases h0 : tc.name = ""
      · rw [if_pos h0]; decide
      · rw [if_neg h0]; exact hname
    refine ?_
    simp only [show k + 2 = (k + 1) + 1 from rfl, runIterations, hllm1, hcalls1,
      hfind1, execToolList, hE]
    rw [if_neg (fun hand => List.cons_ne_nil tc [] hand.1)]
    simp only [runIterations, hllm2, hcalls2, hfind2, hfcargs]
    refine ⟨by trivial, by trivial, ?_⟩
    have hnofin2 : ¬ ("finish" = orElseStr tc.name "unknown") := fun h => hnofin h.symm
    simp [List.filter, hnofin2]

/-- Witness for C3 at concrete oracles: with retry_limit 1 and a pi_search
tool that times out once then succeeds, the decision finishes met with the
two recorded attempts; with all attempts timing out the run is
uncertain/tool_timeout using the 5s per-tool override; a failing tool leads
to a second LLM call. -/
theorem react_tool_timeout_retry_witness :
    (runEvaluateCriterion ⟨3, 12, [("pi_search", 5)], 1⟩ ⟨"case-1", "p", Option.none⟩ "c"
        (fun i => if i = 0 then
            .ok ⟨Option.none, [⟨"call_1", "pi_search", Option.none⟩], Option.none⟩
          else .ok ⟨Option.none, [⟨"call_2", "finish",
            some ⟨some "met", some "ok", some (9/10), some "S2", [3],
              Option.none, Option.none⟩⟩], Option.none⟩)
        (fun i => if i = 0 then .timeout "slow" else .ok "payload")).result.status =
      DecisionStatus.met
      ∧ ((runEvaluateCriterion ⟨3, 12, [("pi_search", 5)], 1⟩
          ⟨"case-1", "p", Option.none⟩ "c"
        (fun i => if i = 0 then
            .ok ⟨Option.none, [⟨"call_1", "pi_search", Option.none⟩], Option.none⟩
          else .ok ⟨Option.none, [⟨"call_2", "finish",
            some ⟨some "met", some "ok", some (9/10), some "S2", [3],
              Option.none, Option.none⟩⟩], Option.none⟩)
        (fun i => if i = 0 then .timeout "slow" else .ok "payload")).tool_history.filter
          (fun rec => rec.action = "pi_search")).length = 2
      ∧ (runEvaluateCriterion ⟨3, 12, [("pi_search", 5)], 1⟩ ⟨"case-1", "p", Option.none⟩ "c"
        (fun _ => .ok ⟨Option.none, [⟨"call_1", "pi_search", Option.none⟩], Option.none⟩)
        (fun _ => .timeout "slow")).result.reason_code = some "tool_timeout"
      ∧ (runEvaluateCriterion ⟨3, 12, [("pi_search", 5)], 1⟩ ⟨"case-1", "p", Option.none⟩ "c"
        (fun _ => .ok ⟨Option.none, [⟨"call_1", "pi_search", Option.none⟩], Option.none⟩)
        (fun _ => .timeout "slow")).result.rationale =
          "Agent error: pi_search timed out after 5s"
      ∧ (runEvaluateCriterion ⟨3, 12, [("pi_search", 5)], 1⟩ ⟨"case-1", "p", Option.none⟩ "c"
        (fun i => if i = 0 then
            .ok ⟨Option.none, [⟨"call_1", "pi_search", Option.none⟩], Option.none⟩
          else .ok ⟨Option.none, [⟨"call_2", "finish",
            some ⟨some "met", some "ok", some (9/10), some "S2", [3],
              Option.none, Option.none⟩⟩], Option.none⟩)
        (fun _ => .fail "boom")).llm_calls = 2 := by
  have h3 := (react_tool_timeout_retry ⟨3, 12, [("pi_search", 5)], 1⟩
      ⟨"case-1", "p", Option.none⟩ "c").2.2 rfl
    (fun i => if i = 0 then
        .ok ⟨Option.none, [⟨"call_1", "pi_search", Option.none⟩], Option.none⟩
      else .ok ⟨Option.none, [⟨"call_2", "finish",
        some ⟨some "met", some "ok", some (9/10), some "S2", [3],
          Option.none, Option.none⟩⟩], Option.none⟩)
    (fun i => if i = 0 then .timeout "slow" else .ok "payload")
    ⟨Option.none, [⟨"call_1", "pi_search", Option.none⟩], Option.none⟩
    ⟨"call_1", "pi_search", Option.none⟩ "slow" "payload"
    ⟨Option.none, [⟨"call_2", "finish",
      some ⟨some "met", some "ok", some (9/10), some "S2", [3],
        Option.none, Option.none⟩⟩], Option.none⟩
    ⟨"call_2", "finish", some ⟨some "met", some "ok", some (9/10), some "S2", [3],
      Option.none, Option.none⟩⟩
    ⟨some "met", some "ok", some (9/10), some "S2", [3], Option.none, Option.none⟩
    rfl rfl (by decide) rfl rfl rfl rfl rfl rfl (by decide)
  have h1 := (react_tool_timeout_retry ⟨3, 12, [("pi_search", 5)], 1⟩
      ⟨"case-1", "p", Option.none⟩ "c").1
    (fun _ => .ok ⟨Option.none, [⟨"call_1", "pi_search", Option.none⟩], Option.none⟩)
    (fun _ => .timeout "slow")
    ⟨Option.none, [⟨"call_1", "pi_search", Option.none⟩], Option.none⟩
    ⟨"call_1", "pi_search", Option.none⟩
    rfl rfl (by decide) (fun j _ => ⟨"slow", rfl⟩) (by decide)
  have h2 := (react_tool_timeout_retry ⟨3, 12, [("pi_search", 5)], 1⟩
      ⟨"case-1", "p", Option.none⟩ "c").2.1
    (fun i => if i = 0 then
        .ok ⟨Option.none, [⟨"call_1", "pi_search", Option.none⟩], Option.none⟩
      else .ok ⟨Option.none, [⟨"call_2", "finish",
        some ⟨some "met", some "ok", some (9/10), some "S2", [3],
          Option.none, Option.none⟩⟩], Option.none⟩)
    (fun _ => .fail "boom")
    ⟨Option.none, [⟨"call_1", "pi_search", Option.none⟩], Option.none⟩
    ⟨"call_1", "pi_search", Option.none⟩ "boom"
    ⟨Option.none, [⟨"call_2", "finish",
      some ⟨some "met", some "ok", some (9/10), some "S2", [3],
        Option.none, Option.none⟩⟩], Option.none⟩
    ⟨"call_2", "finish", some ⟨some "met", some "ok", some (9/10), some "S2", [3],
      Option.none, Option.none⟩⟩
    ⟨some "met", some "ok", some (9/10), some "S2", [3], Option.none, Option.none⟩
    rfl rfl (by decide) rfl rfl rfl rfl rfl (by decide)
  exact ⟨h3.1, by simpa using h3.2.2, h1.2.1,
    by simpa using h1.2.2.1, h2.1⟩

/-! Heuristic controller confidence breakdown
(reasoning_service/services/controller.py,
HeuristicReActController._build_confidence_breakdown). -/

/-- Python round() to 3 decimal places: round-half-to-even on thousandths
(binary-float representation artifacts of the source are abstracted into
exact rational rounding). -/
def roundHalfEven (q : ℚ) : ℤ :=
  if q - ⌊q⌋ < 1/2 then ⌊q⌋
  else if 1/2 < q - ⌊q⌋ then ⌊q⌋ + 1
  else if 2 ∣ ⌊q⌋ then ⌊q⌋ else ⌊q⌋ + 1

def round3 (q : ℚ) : ℚ := (roundHalfEven (q * 1000) : ℚ) / 1000

/-- The c_final_map of the heuristic breakdown. -/
def cFinalMap : DecisionStatus → ℚ
  | .met => 19/20
  | .missing => 9/10
  | .uncertain => 3/5

/-- HeuristicReActController._build_confidence_breakdown: c_tree clamps the
retrieval confidence into [0,1] (the source's `retrieval_confidence or 0.0`
maps falsy 0.0 to 0.0, which the clamp already yields); c_final by status;
c_span from the evidence confidence when truthy (non-zero), else 0.85 for
non-uncertain and 0.6 for uncertain; and
c_joint = round(min(1.0, c_tree * c_span * c_final), 3). -/
def buildConfidenceBreakdown (retrievalConfidence evidenceConfidence : ℚ)
    (status : DecisionStatus) : ConfidenceBreakdown :=
  let c_tree := max 0 (min 1 retrievalConfidence)
  let c_final := cFinalMap status
  let c_span :=
    if evidenceConfidence ≠ 0 then max (3/10) (min 1 evidenceConfidence)
    else if status ≠ DecisionStatus.uncertain then 17/20 else 3/5
  ⟨c_tree, c_span, c_final, round3 (min 1 (c_tree * c_span * c_final))⟩

/-- Claim C8 (confirmed): a successful finish builds a breakdown with the
fixed priors c_tree = 0.9 and c_span = 0.85 and with c_final and c_joint
both equal to the confidence reported in the finish arguments (defaulting
to 0.0 when absent) — not a product of the components — while the heuristic
path computes c_joint as the product of its own c_tree, c_span and c_final,
clamped to 1.0 and rounded to 3 decimals. -/
theorem confidence_breakdown_two_paths :
    (∀ (cid : String) (args : FinishArgs) (trace : List ReasoningStep)
        (cb : CaseBundleE),
        (buildResultFromFinish cid args trace cb).confidence_breakdown =
            ⟨9/10, 17/20, args.confidence.getD 0, args.confidence.getD 0⟩
          ∧ (buildResultFromFinish cid args trace cb).confidence =
            args.confidence.getD 0)
      ∧ (∀ (rc ec : ℚ) (st : DecisionStatus),
        (buildConfidenceBreakdown rc ec st).c_joint =
          round3 (min 1 ((buildConfidenceBreakdown rc ec st).c_tree *
            (buildConfidenceBreakdown rc ec st).c_span *
            (buildConfidenceBreakdown rc ec st).c_final))) :=
  ⟨fun cid args trace cb => ⟨rfl, rfl⟩, fun rc ec st => rfl⟩

/-! Delegating controller (reasoning_service/services/controller.py,
class ReActController). -/

/-- The delegation settings (settings.react_shadow_mode,
react_use_llm_controller, react_fallback_enabled, react_ab_test_ratio; the
last is named ab_share here). -/
structure DelegSettings where
  shadow_mode : Bool
  use_llm : Bool
  fallback_enabled : Bool
  ab_share : ℚ
deriving Repr

/-- ReActController._determine_mode; hasLLM models whether the LLM
controller instance was initialized, rngDraw the random() sample of the
A/B draw. -/
def determineMode (s : DelegSettings) (hasLLM : Bool) (rngDraw : ℚ) : String :=
  if s.shadow_mode ∧ hasLLM then "shadow"
  else if s.use_llm ∧ hasLLM then "llm"
  else if 0 < s.ab_share ∧ hasLLM then
    (if rngDraw < s.ab_share then "llm" else "heuristic")
  else "heuristic"

structure ShadowLog where
  criterion_id : String
  heuristic_status : DecisionStatus
  heuristic_confidence : ℚ
  llm_status : DecisionStatus
  llm_confidence : ℚ
deriving DecidableEq, Repr

/-- llm_map lookup of _log_shadow_diff: the dict comprehension keyed on
criterion_id lets later results overwrite earlier ones, so the lookup
returns the last match. -/
def llmLookup (l : List CriterionResult) (cid : String) : Option CriterionResult :=
  l.reverse.find? (fun r => r.criterion_id = cid)

/-- The per-result mismatch check of _log_shadow_diff: no counterpart means
only a warning (no mismatch entry); a counterpart produces an entry exactly
when status differs or the confidence delta exceeds 0.05. -/
def shadowEntry (l : List CriterionResult) (hr : CriterionResult) : Option ShadowLog :=
  match llmLookup l hr.criterion_id with
  | Option.none => Option.none
  | some cp =>
    if hr.status ≠ cp.status ∨ 1/20 < |hr.confidence - cp.confidence| then
      some ⟨hr.criterion_id, hr.status, hr.confidence, cp.status, cp.confidence⟩
    else Option.none

/-- ReActController._log_shadow_diff as the list of emitted mismatch logs. -/
def logShadowDiff (h l : List CriterionResult) : List ShadowLog :=
  h.filterMap (shadowEntry l)

/-- ReActController.evaluate_case of the delegating controller. The
heuristic controller output (hres) and the LLM path outcome (llmRun, with
Except.error for a raised exception) are oracles; the function returns the
served results paired with the shadow mismatch logs, or propagates the LLM
error in llm mode when fallback is disabled. In shadow mode _maybe_run_llm
swallows any LLM exception and returns None, producing no logs. -/
def evaluateCaseDeleg (s : DelegSettings) (hasLLM : Bool) (rngDraw : ℚ)
    (hres : List CriterionResult) (llmRun : Except String (List CriterionResult)) :
    Except String (List CriterionResult × List ShadowLog) :=
  let mode := determineMode s hasLLM rngDraw
  if mode = "shadow" then
    let llmResults : Option (List CriterionResult) :=
      if hasLLM then
        match llmRun with
        | .ok rs => some rs
        | .error _ => Option.none
      else Option.none
    .ok (hres, match llmResults with
      | some rs => logShadowDiff hres rs
      | Option.none => [])
  else if mode = "llm" then
    match llmRun with
    | .ok rs => .ok (rs, [])
    | .error e => if s.fallback_enabled then .ok (hres, []) else .error e
  else .ok (hres, [])

/-- Claim C6 (confirmed): in shadow mode evaluate_case always serves the
heuristic results — whether the LLM path succeeds (possibly divergent) or
raises — and the only effect of a divergence is a mismatch log, emitted
for a matched criterion exactly when the status differs or the confidence
delta exceeds 0.05. -/
theorem shadow_mode_serves_heuristic (s : DelegSettings) (hasLLM : Bool)
    (rngDraw : ℚ) (hres : List CriterionResult)
    (llmRun : Except String (List CriterionResult)) :
    (determineMode s hasLLM rngDraw = "shadow" →
      (∀ rs, llmRun = .ok rs →
        evaluateCaseDeleg s hasLLM rngDraw hres llmRun =
          .ok (hres, logShadowDiff hres rs))
      ∧ (∀ e, llmRun = .error e →
        evaluateCaseDeleg s hasLLM rngDraw hres llmRun = .ok (hres, [])))
      ∧ (∀ (l : List CriterionResult) (hr cp : CriterionResult),
        llmLookup l hr.criterion_id = some cp →
        (shadowEntry l hr ≠ Option.none ↔
          (hr.status ≠ cp.status ∨ 1/20 < |hr.confidence - cp.confidence|))) := by
  constructor
  · intro hmode
    have hasL : hasLLM = true := by
      unfold determineMode at hmode
      split_ifs at hmode with h1 h2 h3
      · exact h1.2
      all_goals exact absurd hmode (by decide)
    constructor
    · intro rs hrs
      subst hrs
      simp only [evaluateCaseDeleg]
      rw [hmode]
      simp [hasL]
    · intro e he
      subst he
      simp only [evaluateCaseDeleg]
      rw [hmode]
      simp [hasL]
  · intro l hr cp hlk
    simp only [shadowEntry, hlk]
    by_cases hcond : hr.status ≠ cp.status ∨ 1/20 < |hr.confidence - cp.confidence|
    · rw [if_pos hcond]
      exact iff_of_true (by simp) hcond
    · rw [if_neg hcond]
      exact iff_of_false (by simp) hcond

/-- Witness for C6: shadow settings with a divergent LLM result serve the
heuristic results with a mismatch log, and a raising LLM path serves them
with no log at all. -/
theorem shadow_mode_serves_heuristic_witness :
    evaluateCaseDeleg ⟨true, false, true, 0⟩ true 0
        [mkResult .met (9/10) Option.none]
        (.ok [mkResult .missing (1/2) Option.none]) =
      .ok ([mkResult .met (9/10) Option.none],
        logShadowDiff [mkResult .met (9/10) Option.none]
          [mkResult .missing (1/2) Option.none])
      ∧ evaluateCaseDeleg ⟨true, false, true, 0⟩ true 0
        [mkResult .met (9/10) Option.none] (.error "boom") =
        .ok ([mkResult .met (9/10) Option.none], [])
      ∧ shadowEntry [mkResult .missing (1/2) Option.none]
          (mkResult .met (9/10) Option.none) ≠ Option.none := by
  refine ⟨?_, ?_, ?_⟩
  · exact ((shadow_mode_serves_heuristic ⟨true, false, true, 0⟩ true 0
      [mkResult .met (9/10) Option.none]
      (.ok [mkResult .missing (1/2) Option.none])).1 (by decide)).1
      [mkResult .missing (1/2) Option.none] rfl
  · exact ((shadow_mode_serves_heuristic ⟨true, false, true, 0⟩ true 0
      [mkResult .met (9/10) Option.none] (.error "boom")).1 (by decide)).2 "boom" rfl
  · exact (shadow_mode_serves_heuristic ⟨true, false, true, 0⟩ true 0
      [mkResult .met (9/10) Option.none] (.error "boom")).2
      [mkResult .missing (1/2) Option.none] (mkResult .met (9/10) Option.none)
      (mkResult .missing (1/2) Option.none) (by decide) |>.mpr (Or.inl (by decide))

/-! Retrieval orchestrator (retrieval/service.py, RetrievalService). -/

structure PINodeContent where
  page_index : Option ℤ
  relevant_content : String
deriving DecidableEq, Repr

/-- One node of a PageIndex tree-search payload; score is Option (missing
or non-numeric scores are skipped by the ambiguity computation). -/
structure PINode where
  node_id : String
  page_index : Option ℤ
  title : Option String
  prefix_summary : Option String
  score : Option ℚ
  relevant_contents : List PINodeContent
deriving DecidableEq, Repr

/-- A tree-search response payload (the payload.get("nodes") or
payload.get("results") JSON-shape handling is collapsed into the resolved
node list). -/
structure PIPayload where
  nodes : List PINode
  search_trajectory : List String
deriving DecidableEq, Repr

/-- The PageIndex client capability: availability flag and the three
HTTP-backed calls, each returning Except with PageIndexError text. -/
structure PIClient where
  available : Bool
  llm_tree_search : String → String → Except String PIPayload
  hybrid_tree_search : String → String → Except String PIPayload
  get_node_content : String → String → Except String String

/-- External collaborators of the retrieval service: the client and the
FTS5 fallback index (load_paragraphs + top_spans collapsed into one oracle
from the indexed paragraphs and the query to ranked
(index, content, score) hits). -/
structure RetrievalDeps where
  client : PIClient
  fts5_top_spans : List String → String → List (ℕ × String × ℚ)

/-- RetrievalConfig (hybrid_tree_search_threshold,
node_span_token_threshold). -/
structure RetrievalConfigE where
  hybrid_threshold : ℚ
  node_span_token_threshold : ℕ
deriving Repr

structure NodeReference where
  node_id : String
  pages : List ℤ
  title : Option String
  summary : Option String
deriving DecidableEq, Repr

structure Span where
  node_id : String
  page_index : Option ℤ
  text : String
deriving DecidableEq, Repr

structure RetrievalResult where
  node_refs : List NodeReference
  spans : List Span
  search_trajectory : List String
  retrieval_method : String
  confidence : ℚ
  reason_code : Option String
  error : Option String
deriving DecidableEq, Repr

/-- RetrievalResult.empty: all collections default to empty, method to
pageindex-llm, confidence 0.0. -/
def RetrievalResult.empty (reasonCode : String) (err : Option String) : RetrievalResult :=
  ⟨[], [], [], "pageindex-llm", 0, some reasonCode, err⟩

/-- RetrievalService._parse_payload. -/
def parsePayload (payload : PIPayload) (method : String) : RetrievalResult :=
  let node_refs := payload.nodes.map (fun node =>
    NodeReference.mk node.node_id
      (match node.page_index with | some p => [p] | Option.none => [])
      node.title node.prefix_summary)
  let spans := payload.nodes.bind (fun node =>
    node.relevant_contents.map (fun content =>
      Span.mk node.node_id content.page_index content.relevant_content))
  { node_refs := node_refs
    spans := spans
    search_trajectory := payload.search_trajectory
    retrieval_method := method
    confidence := if node_refs ≠ [] then 9/10 else 0
    reason_code := if node_refs ≠ [] then Option.none else some "no_relevant_nodes"
    error := Option.none }

/-- RetrievalService._calculate_ambiguity: variance of the per-node scores
normalised by their maximum (0.0 with fewer than two numeric scores, 1.0
when the maximum is zero). -/
def calculateAmbiguity (payload : PIPayload) : ℚ :=
  let scores := payload.nodes.filterMap (fun node => node.score)
  if scores.length < 2 then 0
  else
    let maxScore := match scores with
      | [] => 0
      | m :: ms => ms.foldl max m
    if maxScore = 0 then 1
    else
      let normalized := scores.map (fun sc => sc / maxScore)
      let mean := (normalized.foldl (· + ·) 0) / (normalized.length : ℚ)
      ((normalized.map (fun v => (v - mean) * (v - mean))).foldl (· + ·) 0) /
        (normalized.length : ℚ)

/-- len(text.split()) of one span: whitespace-delimited word count. -/
def pyWordCount (s : String) : ℕ :=
  (s.data.foldl (fun (acc : ℕ × Bool) c =>
    if c.isWhitespace then (acc.1, false)
    else if acc.2 then acc else (acc.1 + 1, true)) (0, false)).1

/-- RetrievalService._should_use_bm25. -/
def shouldUseBm25 (cfg : RetrievalConfigE) (spans : List Span) : Bool :=
  cfg.node_span_token_threshold <
    (spans.map (fun sp => pyWordCount sp.text)).foldl (· + ·) 0

/-- Splitting on a literal separator, Python str.split(sep) style; fuel is
the input length. -/
def splitSepGo (sep : List Char) : ℕ → List Char → List (List Char)
  | _, [] => [[]]
  | 0, l => [l]
  | f + 1, c :: rest =>
    if leadsWith sep (c :: rest) ∧ ¬ sep = [] then
      [] :: splitSepGo sep f (List.drop (sep.length - 1) rest)
    else
      match splitSepGo sep f rest with
      | [] => [[c]]
      | g :: gs => (c :: g) :: gs

def pySplitOn (s sep : String) : List String :=
  (splitSepGo sep.data s.data.length s.data).map (fun l => String.mk l)

/-- RetrievalService._bm25_fallback: per node reference, fetch the node
text (PageIndexError skips the node), split into stripped non-empty
paragraphs, index them in the ephemeral FTS5 index and collect the re-ranked
spans. -/
def bm25Fallback (deps : RetrievalDeps) (query docId : String) :
    List NodeReference → List Span
  | [] => []
  | ref :: rest =>
    match deps.client.get_node_content docId ref.node_id with
    | .error _ => bm25Fallback deps query docId rest
    | .ok text =>
      let paragraphs := ((pySplitOn text "\n\n").map strTrim).filter (fun p => ¬ p = "")
      if paragraphs = [] then bm25Fallback deps query docId rest
      else
        ((deps.fts5_top_spans paragraphs query).map
          (fun h => Span.mk ref.node_id Option.none h.2.1))
          ++ bm25Fallback deps query docId rest

/-- The span-tightening step at the end of a successful search: when the
spans are non-empty and exceed the token budget, replace them with the BM25
re-ranked spans (when any) and re-tag the method. -/
def bm25Step (deps : RetrievalDeps) (cfg : RetrievalConfigE) (query d : String)
    (res2 : RetrievalResult) : RetrievalResult :=
  if res2.spans ≠ [] ∧ shouldUseBm25 cfg res2.spans = true then
    let tightened := bm25Fallback deps query d res2.node_refs
    if tightened ≠ [] then
      { res2 with spans := tightened, retrieval_method := "bm25-fallback" }
    else res2
  else res2

/-- RetrievalService.search: missing/falsy doc id and unconfigured
credentials short-circuit to empty results; the try block runs the LLM tree
search, possibly the hybrid escalation, and the BM25 span tightening, with
any PageIndexError from the tree searches caught into the pageindex_error
empty result. -/
def searchR (deps : RetrievalDeps) (cfg : RetrievalConfigE) (query : String)
    (docId : Option String) : RetrievalResult :=
  match docId with
  | Option.none =>
    RetrievalResult.empty "missing_doc_id" (some "doc_id is required for retrieval")
  | some d =>
    if d = "" then
      RetrievalResult.empty "missing_doc_id" (some "doc_id is required for retrieval")
    else if ¬ deps.client.available then
      RetrievalResult.empty "pageindex_unavailable"
        (some "PAGEINDEX_API_KEY is not configured")
    else
      match deps.client.llm_tree_search d query with
      | .error e => RetrievalResult.empty "pageindex_error" (some e)
      | .ok payload =>
        -- ambiguity escalation: a PageIndexError raised by the hybrid call is
        -- caught by the same except clause as the primary call
        if cfg.hybrid_threshold < calculateAmbiguity payload then
          match deps.client.hybrid_tree_search d query with
          | .error e => RetrievalResult.empty "pageindex_error" (some e)
          | .ok hp => bm25Step deps cfg query d (parsePayload hp "pageindex-hybrid")
        else bm25Step deps cfg query d (parsePayload payload "pageindex-llm")

lemma parsePayload_error (p : PIPayload) (m : String) :
    (parsePayload p m).error = Option.none := rfl

/-- Every search result is either one of the explicit empty failure results
or carries no error. -/
lemma searchR_shape (deps : RetrievalDeps) (cfg : RetrievalConfigE) (query : String)
    (docId : Option String) :
    (∃ rc err, searchR deps cfg query docId = RetrievalResult.empty rc (some err))
      ∨ (searchR deps cfg query docId).error = Option.none := by
  cases docId with
  | none => exact Or.inl ⟨_, _, rfl⟩
  | some d =>
    simp only [searchR]
    by_cases h1 : d = ""
    · rw [if_pos h1]
      exact Or.inl ⟨_, _, rfl⟩
    · rw [if_neg h1]
      by_cases h2 : ¬ deps.client.available = true
      · rw [if_pos h2]
        exact Or.inl ⟨_, _, rfl⟩
      · rw [if_neg h2]
        cases hls : deps.client.llm_tree_search d query with
        | error e =>
          exact Or.inl ⟨"pageindex_error", e, rfl⟩
        | ok payload =>
          by_cases hamb : cfg.hybrid_threshold < calculateAmbiguity payload
          · simp only [if_pos hamb]
            cases hh : deps.client.hybrid_tree_search d query with
            | error e => exact Or.inl ⟨"pageindex_error", e, rfl⟩
            | ok hp =>
              refine Or.inr ?_
              simp only [bm25Step]
              split_ifs <;> rfl
          · simp only [if_neg hamb]
            refine Or.inr ?_
            simp only [bm25Step]
            split_ifs <;> rfl

/-- Claim C7 (confirmed): retrieval search never raises on its documented
failure modes — for a missing/falsy document id, unconfigured credentials,
and an upstream PageIndexError it returns the explicit empty result with
the corresponding reason code and error string at confidence 0.0 — and
every result with a set error field has empty node-reference and span
lists (and zero confidence); the embedding itself is a total function, so
within the modelled failure modes nothing escapes. -/
theorem retrieval_search_error_contract (deps : RetrievalDeps)
    (cfg : RetrievalConfigE) (query : String) (docId : Option String) :
    ((docId = Option.none ∨ docId = some "") →
      searchR deps cfg query docId =
        RetrievalResult.empty "missing_doc_id" (some "doc_id is required for retrieval"))
      ∧ (∀ d, docId = some d → ¬ d = "" → deps.client.available = false →
        searchR deps cfg query docId =
          RetrievalResult.empty "pageindex_unavailable"
            (some "PAGEINDEX_API_KEY is not configured"))
      ∧ (∀ d e, docId = some d → ¬ d = "" → deps.client.available = true →
        deps.client.llm_tree_search d query = .error e →
        searchR deps cfg query docId = RetrievalResult.empty "pageindex_error" (some e))
      ∧ ((searchR deps cfg query docId).error ≠ Option.none →
        (searchR deps cfg query docId).node_refs = []
          ∧ (searchR deps cfg query docId).spans = []
          ∧ (searchR deps cfg query docId).confidence = 0)
      ∧ (∀ rc err, (RetrievalResult.empty rc err).node_refs = []
          ∧ (RetrievalResult.empty rc err).spans = []
          ∧ (RetrievalResult.empty rc err).confidence = 0
          ∧ (RetrievalResult.empty rc err).reason_code = some rc
          ∧ (RetrievalResult.empty rc err).error = err) := by
  refine ⟨?_, ?_, ?_, ?_, fun rc err => ⟨rfl, rfl, rfl, rfl, rfl⟩⟩
  · intro h
    rcases h with h | h <;> subst h
    · rfl
    · simp [searchR]
  · intro d hd hne hav
    subst hd
    simp only [searchR, if_neg hne]
    rw [if_pos (by simp [hav])]
  · intro d e hd hne hav hls
    subst hd
    simp only [searchR, if_neg hne]
    rw [if_neg (by simp [hav]), hls]
  · intro herr
    rcases searchR_shape deps cfg query docId with ⟨rc, err, hshape⟩ | hnone
    · rw [hshape]
      exact ⟨rfl, rfl, rfl⟩
    · exact absurd hnone herr

/-- Witness for C7 at a concrete unavailable client and a failing client:
the pageindex_unavailable and pageindex_error empty results, plus the
missing doc id case. -/
theorem retrieval_search_error_contract_witness :
    searchR ⟨⟨false, fun _ _ => .error "x", fun _ _ => .error "x",
        fun _ _ => .error "x"⟩, fun _ _ => []⟩ ⟨3/20, 2000⟩ "q" (some "doc-1") =
      RetrievalResult.empty "pageindex_unavailable"
        (some "PAGEINDEX_API_KEY is not configured")
      ∧ searchR ⟨⟨true, fun _ _ => .error "HTTP 500", fun _ _ => .error "x",
        fun _ _ => .error "x"⟩, fun _ _ => []⟩ ⟨3/20, 2000⟩ "q" (some "doc-1") =
        RetrievalResult.empty "pageindex_error" (some "HTTP 500")
      ∧ searchR ⟨⟨true, fun _ _ => .error "x", fun _ _ => .error "x",
        fun _ _ => .error "x"⟩, fun _ _ => []⟩ ⟨3/20, 2000⟩ "q" Option.none =
        RetrievalResult.empty "missing_doc_id" (some "doc_id is required for retrieval") := by
  refine ⟨?_, ?_, ?_⟩
  · exact (retrieval_search_error_contract ⟨⟨false, fun _ _ => .error "x",
      fun _ _ => .error "x", fun _ _ => .error "x"⟩, fun _ _ => []⟩
      ⟨3/20, 2000⟩ "q" (some "doc-1")).2.1 "doc-1" rfl (by decide) rfl
  · exact (retrieval_search_error_contract ⟨⟨true, fun _ _ => .error "HTTP 500",
      fun _ _ => .error "x", fun _ _ => .error "x"⟩, fun _ _ => []⟩
      ⟨3/20, 2000⟩ "q" (some "doc-1")).2.2.1 "doc-1" "HTTP 500" rfl (by decide) rfl rfl
  · exact (retrieval_search_error_contract ⟨⟨true, fun _ _ => .error "x",
      fun _ _ => .error "x", fun _ _ => .error "x"⟩, fun _ _ => []⟩
      ⟨3/20, 2000⟩ "q" Option.none).1 (Or.inl rfl)

end DocReasoner
